import Mathlib

/-!
Verification of the bot-casino spin settlement engine.

This file is a shallow embedding of the casino core of the repository:
the slot-machine payout evaluators (`src/casino_bot/slots.py`), the balance /
jackpot / inventory / effect store (`src/casino_bot/database.py`), and the
spin coordinator plus item and transfer commands (`src/casino_bot/bot.py`),
specialised to the shipped default configuration (`src/casino_bot/config.py`).

Modelling conventions:
* SQLite tables become association lists; a keyed `SELECT` is `alookup`,
  `REPLACE INTO` / keyed `UPDATE` is `aset`, `DELETE` is `aerase`.  A raised
  `ValueError` rolls the enclosing transaction back, so fallible operations
  return `Option` with `none` leaving the state unchanged at the call site.
* Python floats that carry exact small decimals (jackpot percentages, the
  win-boost multiplier, the 0.05 auto-bet factor) are modelled as exact
  rationals given by an integer numerator and a natural denominator; `int(x)`
  is truncation toward zero.
* Telegram transport, message texts, animation delays and the RNG are outside
  the embedding: a spin takes its drawn symbols (and the free-spin draws) as
  explicit inputs.
-/

namespace Casino

/-- Reel symbols are string tokens (emoji). -/
abbrev Sym := String

/-- Association-list lookup (models `SELECT ... WHERE key = ?` on a keyed table). -/
def alookup {α β : Type} [DecidableEq α] (k : α) : List (α × β) → Option β
  | [] => none
  | (k', v) :: rest => if k' = k then some v else alookup k rest

/-- Remove every binding of a key (models `DELETE ... WHERE key = ?`). -/
def aerase {α β : Type} [DecidableEq α] (k : α) : List (α × β) → List (α × β)
  | [] => []
  | (k', v) :: rest => if k' = k then aerase k rest else (k', v) :: aerase k rest

/-- Insert-or-replace a binding (models `REPLACE INTO` and keyed `UPDATE`). -/
def aset {α β : Type} [DecidableEq α] (k : α) (v : β) (l : List (α × β)) :
    List (α × β) :=
  (k, v) :: aerase k l

/-- An exact rational `num / den`, modelling a Python float whose value is an
exact small decimal (e.g. `0.01`, `1.2`, `500.0`). -/
structure RatVal where
  num : Int
  den : Nat
deriving DecidableEq

/-- Python `int(x)`: truncation toward zero. -/
def RatVal.trunc (v : RatVal) : Int :=
  if 0 ≤ v.num then ((v.num.toNat / v.den : Nat) : Int)
  else -((v.num.natAbs / v.den : Nat) : Int)

/-- Result of `SlotMachine.evaluate` (slots.py): immediate winnings, the slice
of the jackpot pool consumed, and awarded free spins.  Message strings are
presentation only and are omitted. -/
structure Outcome where
  winnings : Nat
  jackpotWin : Nat
  freeSpins : Nat
deriving DecidableEq

/-- `len({a, b, c})`: the number of distinct values among the three symbols. -/
def distinctCount (a b c : Sym) : Nat :=
  if a = b then (if a = c then 1 else 2)
  else if a = c then 2
  else if b = c then 2
  else 3

/-- The unique non-wild symbol occurring exactly twice among the three drawn
symbols, if any (models the `counts` dictionary loop in slots.py: at most one
symbol of three can have count 2, so dict order is immaterial). -/
def pairSymbol (wild a b c : Sym) : Option Sym :=
  if a ≠ wild ∧ [a, b, c].count a = 2 then some a
  else if b ≠ wild ∧ [a, b, c].count b = 2 then some b
  else if c ≠ wild ∧ [a, b, c].count c = 2 then some c
  else none

/-- A Classic machine: reel composition does not matter for evaluation, only
the special-payout table does (`FruitMachine` in slots.py). -/
structure FruitMachine where
  specialPayouts : List ((Sym × Sym × Sym) × Nat)
deriving DecidableEq

/-- `FruitMachine.evaluate` (slots.py lines 85-107): special-triplet table
first (a missing or zero entry is falsy in Python and falls through), then
three-of-a-kind at ×5, then exactly two distinct values at ×2, else no win. -/
def FruitMachine.evaluate (m : FruitMachine) (a b c : Sym) (bet : Nat) : Outcome :=
  let payout := (alookup (a, b, c) m.specialPayouts).getD 0
  if payout ≠ 0 then ⟨bet * payout, 0, 0⟩
  else if a = b ∧ b = c then ⟨bet * 5, 0, 0⟩
  else if distinctCount a b c = 2 then ⟨bet * 2, 0, 0⟩
  else ⟨0, 0, 0⟩

/-- A WildJackpot-family machine (`WildJackpotMachine` in slots.py).  The
jackpot percentage float is the exact rational `pctNum / pctDen`. -/
structure WildJackpotMachine where
  wild : Sym
  pctNum : Nat
  pctDen : Nat
  triplePayouts : List (Sym × Nat)
  doublePayouts : List (Sym × Nat)
  jackpotMultiplier : Nat
  jackpotSeed : Nat
deriving DecidableEq

/-- `_score_symbol`: triple payout ×10 plus double payout. -/
def WildJackpotMachine.score (m : WildJackpotMachine) (s : Sym) : Nat :=
  (alookup s m.triplePayouts).getD 0 * 10 + (alookup s m.doublePayouts).getD 0

/-- `_choose_best_symbol` tail: keep the current best on ties (first
encounter wins), replace only on strictly larger score. -/
def WildJackpotMachine.chooseBestAux (m : WildJackpotMachine) (best : Sym)
    (bestScore : Nat) : List Sym → Sym
  | [] => best
  | s :: rest =>
    if bestScore < m.score s then m.chooseBestAux s (m.score s) rest
    else m.chooseBestAux best bestScore rest

/-- `_choose_best_symbol` (slots.py lines 217-225). -/
def WildJackpotMachine.chooseBest (m : WildJackpotMachine) (l : List Sym)
    (dflt : Sym) : Sym :=
  match l with
  | [] => dflt
  | s :: rest => m.chooseBestAux s (m.score s) rest

/-- `WildJackpotMachine.evaluate` (slots.py lines 156-215). -/
def WildJackpotMachine.evaluate (m : WildJackpotMachine) (a b c : Sym)
    (bet jackpotBalance : Nat) : Outcome :=
  let wildCount := [a, b, c].count m.wild
  if wildCount = 3 then
    ⟨bet * m.jackpotMultiplier + jackpotBalance, jackpotBalance, 0⟩
  else
    let nonWild := [a, b, c].filter (fun s => s ≠ m.wild)
    let wildResult : Option Outcome :=
      if wildCount ≠ 0 then
        if nonWild.isEmpty then
          some ⟨bet * m.jackpotMultiplier + jackpotBalance, jackpotBalance, 0⟩
        else
          let best := m.chooseBest nonWild m.wild
          let matchCount := nonWild.count best + wildCount
          let multiplier :=
            if 3 ≤ matchCount then (alookup best m.triplePayouts).getD 0
            else if matchCount = 2 then (alookup best m.doublePayouts).getD 0
            else 0
          if multiplier ≠ 0 then some ⟨bet * multiplier, 0, 0⟩ else none
      else none
    match wildResult with
    | some o => o
    | none =>
      let tripleResult : Option Outcome :=
        if a = b ∧ b = c ∧ a ≠ m.wild then
          let multiplier := (alookup a m.triplePayouts).getD 0
          if multiplier ≠ 0 then some ⟨bet * multiplier, 0, 0⟩ else none
        else none
      match tripleResult with
      | some o => o
      | none =>
        match pairSymbol m.wild a b c with
        | some s =>
          let multiplier := (alookup s m.doublePayouts).getD 0
          if multiplier ≠ 0 then ⟨bet * multiplier, 0, 0⟩ else ⟨0, 0, 0⟩
        | none => ⟨0, 0, 0⟩

/-- `WildJackpotMachine.jackpot_contribution` (slots.py lines 233-237):
`int(bet * percent)`, replaced by 5 when that truncation is non-positive and
the bet is positive. -/
def WildJackpotMachine.jackpotContribution (m : WildJackpotMachine)
    (bet : Nat) : Nat :=
  let contribution := bet * m.pctNum / m.pctDen
  if contribution = 0 ∧ 0 < bet then 5 else contribution

/-- The scatter token of the pirate machine. -/
def pirateScatter : Sym := "🗺️"

/-- The inline triple-payout table of `PirateMachine.evaluate`. -/
def pirateTriplePayouts : List (Sym × Nat) :=
  [("🏴‍☠️", 30), ("🦜", 20), ("💣", 15), ("💎", 10), ("⚓", 6)]

/-- `PirateMachine.evaluate` (slots.py lines 250-270): three scatters award
ten free spins with zero immediate winnings; else triple at the inline table
(default ×8); else a non-scatter pair at ×2. -/
def PirateMachine.evaluate (a b c : Sym) (bet : Nat) : Outcome :=
  let scatterCount := [a, b, c].count pirateScatter
  if scatterCount = 3 then ⟨0, 0, 10⟩
  else if a = b ∧ b = c then
    let multiplier := (alookup a pirateTriplePayouts).getD 8
    ⟨bet * multiplier, 0, 0⟩
  else if distinctCount a b c = 2 then
    match pairSymbol pirateScatter a b c with
    | some _ => ⟨bet * 2, 0, 0⟩
    | none => ⟨0, 0, 0⟩
  else ⟨0, 0, 0⟩

/-- The closed set of machine families (Design-note tagged variants). -/
inductive MachineKind
  | fruit (m : FruitMachine)
  | wild (m : WildJackpotMachine)
  | pirate
deriving DecidableEq

/-- A registered machine: its registry key plus its family. -/
structure Machine where
  key : String
  kind : MachineKind
deriving DecidableEq

/-- Polymorphic `evaluate` dispatch. -/
def Machine.evaluate (m : Machine) (a b c : Sym) (bet jackpotBalance : Nat) :
    Outcome :=
  match m.kind with
  | .fruit f => f.evaluate a b c bet
  | .wild w => w.evaluate a b c bet jackpotBalance
  | .pirate => PirateMachine.evaluate a b c bet

/-- `supports_jackpot`: true exactly for the WildJackpot family. -/
def Machine.supportsJackpot (m : Machine) : Bool :=
  match m.kind with
  | .wild _ => true
  | _ => false

/-- `jackpot_contribution` dispatch (the base class returns 0). -/
def Machine.jackpotContribution (m : Machine) (bet : Nat) : Nat :=
  match m.kind with
  | .wild w => w.jackpotContribution bet
  | _ => 0

/-- The shipped special-payout table of the `fruit` machine (config.py). -/
def fruitSpecialPayouts : List ((Sym × Sym × Sym) × Nat) :=
  [(("💎", "💎", "💎"), 50), (("🍀", "🍀", "🍀"), 20), (("🔔", "🔔", "🔔"), 10)]

/-- The shipped Classic machine `fruit` (config.py slot_machines[0]). -/
def fruitMachine : Machine :=
  { key := "fruit", kind := .fruit ⟨fruitSpecialPayouts⟩ }

/-- The WildJackpot configuration of the shipped `pharaoh` machine
(config.py slot_machines[1]): jackpot percent 0.01 = 1/100, multiplier 60,
seed 5000. -/
def pharaohWild : WildJackpotMachine :=
  { wild := "🗿"
    pctNum := 1
    pctDen := 100
    triplePayouts := [("🐍", 20), ("🐞", 16), ("👁️", 12), ("🏺", 10),
      ("𓇶", 6), ("🦂", 6)]
    doublePayouts := [("🐍", 2), ("🐞", 2), ("👁️", 2), ("🏺", 2),
      ("𓇶", 1), ("🦂", 1)]
    jackpotMultiplier := 60
    jackpotSeed := 5000 }

/-- The shipped WildJackpot machine `pharaoh`. -/
def pharaohMachine : Machine := { key := "pharaoh", kind := .wild pharaohWild }

/-- The WildJackpot configuration of the shipped `space` machine
(config.py slot_machines[3]): jackpot percent 0.015 = 15/1000, multiplier 75,
seed 8000. -/
def spaceWild : WildJackpotMachine :=
  { wild := "🌌"
    pctNum := 15
    pctDen := 1000
    triplePayouts := [("🪐", 25), ("🚀", 18), ("👽", 14), ("☄️", 10),
      ("✨", 8), ("🌠", 6)]
    doublePayouts := [("🪐", 2), ("🚀", 2), ("👽", 2), ("☄️", 2),
      ("✨", 1), ("🌠", 1)]
    jackpotMultiplier := 75
    jackpotSeed := 8000 }

/-- The shipped WildJackpot machine `space`. -/
def spaceMachine : Machine := { key := "space", kind := .wild spaceWild }

/-- The shipped Scatter-Bonus machine `pirate` (config.py slot_machines[2]). -/
def pirateMachine : Machine := ⟨"pirate", .pirate⟩

/-- `CasinoDatabase._jackpot_seed` over the shipped configuration: only
WildJackpot-family entries contribute a seed. -/
def jackpotSeeds (key : String) : Nat :=
  if key = "pharaoh" then 5000 else if key = "space" then 8000 else 0

/-- A row of the `users` table (telegram_id is the association key; usernames
are presentation only and omitted). -/
structure UserRec where
  balance : Int
  lastDaily : Option Nat
deriving DecidableEq

/-- A row of the `user_effects` table. -/
structure EffectRec where
  itemId : Option Nat
  expiresAt : Nat
  value : Option RatVal
deriving DecidableEq

/-- A SpinRecord of the append-only spin log (spec §3 data model). -/
structure SpinRecord where
  playerId : Nat
  machineKey : String
  bet : Nat
  totalWin : Nat
  wasFreeSpin : Bool
  timestamp : Nat
deriving DecidableEq

/-- The whole persistent store of `CasinoDatabase` (user_profiles carries only
cosmetic titles/icons and is omitted). -/
structure DBState where
  users : List (Nat × UserRec)
  jackpots : List (String × Nat)
  inventory : List ((Nat × Nat) × Nat)
  effects : List ((Nat × String) × EffectRec)
  spins : List SpinRecord
deriving DecidableEq

/-- The freshly-created database: every table empty. -/
def emptyDB : DBState := ⟨[], [], [], [], []⟩

/-- `CasinoDatabase.get_user`. -/
def getUser (s : DBState) (uid : Nat) : Option UserRec := alookup uid s.users

/-- `CasinoDatabase.create_user`. -/
def createUser (s : DBState) (uid : Nat) (startBalance : Int) : DBState :=
  { s with users := aset uid ⟨startBalance, none⟩ s.users }

/-- `CasinoDatabase.adjust_balance` (database.py lines 165-190): single
read-modify-write; `none` models the raised `ValueError` ("User not found" /
"Insufficient funds"), whose transaction rollback leaves the store unchanged. -/
def adjustBalance (s : DBState) (uid : Nat) (delta : Int) (allowOverdraft : Bool)
    (overdraftLimit : Nat) : Option (Int × DBState) :=
  match alookup uid s.users with
  | none => none
  | some r =>
    let newBalance := r.balance + delta
    let minBalance : Int := if allowOverdraft then -(overdraftLimit : Int) else 0
    if newBalance < minBalance then none
    else some (newBalance,
      { s with users := aset uid { r with balance := newBalance } s.users })

/-- `CasinoDatabase.set_daily_timestamp` (an `UPDATE` matching no row is a
no-op). -/
def setDailyTimestamp (s : DBState) (uid : Nat) (t : Nat) : DBState :=
  match alookup uid s.users with
  | none => s
  | some r => { s with users := aset uid { r with lastDaily := some t } s.users }

/-- `CasinoDatabase.transfer` (database.py lines 199-225): both balances are
read before either row is written; the two updates commit as one unit. -/
def transfer (s : DBState) (senderId recipientId : Nat) (amount : Int) :
    Option ((Int × Int) × DBState) :=
  if amount ≤ 0 then none
  else
    match alookup senderId s.users, alookup recipientId s.users with
    | some sr, some rr =>
      if sr.balance < amount then none
      else
        let newSenderBalance := sr.balance - amount
        let newRecipientBalance := rr.balance + amount
        let users1 := aset senderId { sr with balance := newSenderBalance } s.users
        let users2 := aset recipientId { rr with balance := newRecipientBalance } users1
        some ((newSenderBalance, newRecipientBalance), { s with users := users2 })
    | _, _ => none

/-- `CasinoDatabase.get_jackpot` (database.py lines 284-298): lazily creates
the pool at its seed on first read. -/
def getJackpot (s : DBState) (key : String) : Nat × DBState :=
  match alookup key s.jackpots with
  | some amount => (amount, s)
  | none =>
    let seed := jackpotSeeds key
    (seed, { s with jackpots := aset key seed s.jackpots })

/-- `CasinoDatabase.add_to_jackpot` (database.py lines 248-268). -/
def addToJackpot (s : DBState) (key : String) (amount : Nat) : Nat × DBState :=
  if amount = 0 then getJackpot s key
  else
    match alookup key s.jackpots with
    | none =>
      let seed := max amount (jackpotSeeds key)
      (seed, { s with jackpots := aset key seed s.jackpots })
    | some current =>
      (current + amount,
        { s with jackpots := aset key (current + amount) s.jackpots })

/-- `CasinoDatabase.reset_jackpot` (database.py lines 270-282): returns the
old amount and replaces the pool with its configured seed. -/
def resetJackpot (s : DBState) (key : String) : Nat × DBState :=
  ((alookup key s.jackpots).getD 0,
    { s with jackpots := aset key (jackpotSeeds key) s.jackpots })

/-- `CasinoDatabase.add_item_to_inventory`. -/
def addItemToInventory (s : DBState) (uid itemId : Nat) (stackable : Bool) :
    DBState :=
  match alookup (uid, itemId) s.inventory with
  | none => { s with inventory := aset (uid, itemId) 1 s.inventory }
  | some q =>
    if stackable then { s with inventory := aset (uid, itemId) (q + 1) s.inventory }
    else s

/-- `CasinoDatabase.consume_item`: `none` = nothing consumed (returns False). -/
def consumeItem (s : DBState) (uid itemId : Nat) : Option DBState :=
  match alookup (uid, itemId) s.inventory with
  | none => none
  | some q =>
    if q = 0 then none
    else if q = 1 then some { s with inventory := aerase (uid, itemId) s.inventory }
    else some { s with inventory := aset (uid, itemId) (q - 1) s.inventory }

/-- `CasinoDatabase.has_item`. -/
def hasItem (s : DBState) (uid itemId : Nat) : Bool :=
  match alookup (uid, itemId) s.inventory with
  | none => false
  | some q => 0 < q

/-- `CasinoDatabase.get_item_quantity`. -/
def getItemQuantity (s : DBState) (uid itemId : Nat) : Nat :=
  (alookup (uid, itemId) s.inventory).getD 0

/-- Effect-type key `WIN_BOOST_EFFECT` (bot.py line 27). -/
def effectKeyWinBoost : String := "win_boost"

/-- Effect-type key `CREDIT_LINE_EFFECT` (bot.py line 28). -/
def effectKeyCreditLine : String := "credit_line"

/-- Effect-type key `ANALYTICS_EFFECT` (bot.py line 29). -/
def effectKeyAnalytics : String := "analytics_subscription"

/-- `CasinoDatabase.set_effect` (`REPLACE INTO user_effects`). -/
def setEffect (s : DBState) (uid : Nat) (effectType : String) (e : EffectRec) :
    DBState :=
  { s with effects := aset (uid, effectType) e s.effects }

/-- `CasinoDatabase.clear_effect`. -/
def clearEffect (s : DBState) (uid : Nat) (effectType : String) : DBState :=
  { s with effects := aerase (uid, effectType) s.effects }

/-- `CasinoDatabase.get_effect`. -/
def getEffect (s : DBState) (uid : Nat) (effectType : String) : Option EffectRec :=
  alookup (uid, effectType) s.effects

/-- Modelled from the spec: `CasinoDatabase.record_spin` is invoked by the
coordinator (bot.py lines 752-759 and 1163-1170) but no such method exists in
src/casino_bot/database.py (the packaged sources are missing the statistics
layer of the database).  The spec (§3) defines the SpinRecord store as an
append-only log of `playerId, machineKey, bet, totalWin, wasFreeSpin,
timestamp`, never mutated. -/
def recordSpin (s : DBState) (uid : Nat) (key : String) (bet totalWin : Nat)
    (wasFreeSpin : Bool) (timestamp : Nat) : DBState :=
  { s with spins := s.spins ++ [⟨uid, key, bet, totalWin, wasFreeSpin, timestamp⟩] }

/-- Shipped `Settings.starting_balance`. -/
def startingBalance : Int := 1000

/-- Shipped `Settings.daily_bonus`. -/
def dailyBonus : Int := 200

/-- Shipped `Settings.daily_cooldown_seconds` (24 hours). -/
def dailyCooldownSeconds : Nat := 86400

/-- `CasinoBot._credit_limit`: the `credit_limit` of the shipped credit-line
shop item (id 20). -/
def botCreditLimit : Nat := 500

/-- A shop item from the shipped catalog.  The win-boost multiplier float is
the exact rational `multNum / multDen`; fields that an item type does not use
are zero/one. -/
structure ShopItem where
  itemType : String
  price : Nat
  creditLimit : Nat
  durationSeconds : Nat
  multNum : Nat
  multDen : Nat
  stackable : Bool
deriving DecidableEq

/-- The shipped `Settings.shop_items` keyed by id (config.py lines 128-153);
the win-boost amulet (id 21) lasts 15 minutes at multiplier 1.2 = 6/5. -/
def shopItems : List (Nat × ShopItem) :=
  [ (1, ⟨"title", 100, 0, 0, 1, 1, false⟩),
    (2, ⟨"title", 10000, 0, 0, 1, 1, false⟩),
    (3, ⟨"title", 50000, 0, 0, 1, 1, false⟩),
    (10, ⟨"balance_icon", 5000, 0, 0, 1, 1, false⟩),
    (11, ⟨"balance_icon", 7500, 0, 0, 1, 1, false⟩),
    (12, ⟨"balance_icon", 100000, 0, 0, 1, 1, false⟩),
    (20, ⟨"credit_line", 5000, 500, 0, 1, 1, false⟩),
    (21, ⟨"win_boost", 7500, 0, 900, 6, 5, true⟩) ]

/-- The credit limit read back from a stored credit-line effect
(`_get_credit_line_state`, bot.py lines 981-991): `int()` truncation of the
stored value, defaulting to the configured 500 when unparsable, clamped at 0. -/
def limitOfEffect (e : EffectRec) : Nat :=
  (max 0 (match e.value with
    | some v => v.trunc
    | none => (botCreditLimit : Int))).toNat

/-- `CasinoBot._get_credit_line_state`: the active credit line's limit, if a
credit-line effect is stored (the effect has no time expiry). -/
def getCreditLineState (s : DBState) (uid : Nat) : Option Nat :=
  (getEffect s uid effectKeyCreditLine).map limitOfEffect

/-- `CasinoBot._get_active_win_boost` (bot.py lines 1004-1030): read-and-reap
(clears the effect when expired), multiplier clamped below at 1.  Returns the
multiplier of the live boost together with its expiry. -/
def getActiveWinBoost (s : DBState) (uid now : Nat) :
    Option (Nat × RatVal) × DBState :=
  match getEffect s uid effectKeyWinBoost with
  | none => (none, s)
  | some e =>
    if e.expiresAt ≤ now then (none, clearEffect s uid effectKeyWinBoost)
    else
      let multiplier := match e.value with
        | some v => if v.num < (v.den : Int) then (⟨1, 1⟩ : RatVal) else v
        | none => (⟨1, 1⟩ : RatVal)
      (some (e.expiresAt, multiplier), s)

/-- `CasinoBot._apply_win_boost` (bot.py lines 1032-1050): for positive base
winnings and a live boost with multiplier > 1, the bonus is
`int(base * (multiplier - 1))`, floored at 1 when that truncates to zero. -/
def applyWinBoost (s : DBState) (uid now : Nat) (baseWinnings : Nat) :
    Nat × DBState :=
  if baseWinnings = 0 then (0, s)
  else
    match getActiveWinBoost s uid now with
    | (none, s1) => (0, s1)
    | (some (_, multiplier), s1) =>
      if multiplier.num ≤ (multiplier.den : Int) then (0, s1)
      else
        let bonus := baseWinnings * (multiplier.num - multiplier.den).toNat /
          multiplier.den
        (if bonus = 0 then 1 else bonus, s1)

/-- `CasinoBot._resolve_bet` (bot.py lines 936-946): an explicit bet must be a
positive integer; otherwise the bet is `int(balance * 0.05)` (truncation
toward zero, 0.05 modelled as exactly 1/20), with non-positive values replaced
by 1, clamped to [1, 1000]. -/
def autoBetTrunc (balance : Int) : Int :=
  if 0 ≤ balance then ((balance.toNat / 20 : Nat) : Int)
  else -((balance.natAbs / 20 : Nat) : Int)

/-- `CasinoBot._resolve_bet` continued: clamp the auto-bet to [1, 1000] after
replacing a non-positive truncation by 1. -/
def resolveBet (balance : Int) (betArg : Option Int) : Option Int :=
  match betArg with
  | some bet => if 0 < bet then some bet else none
  | none =>
    let autoBet := autoBetTrunc balance
    let bet := max 1 (min 1000 (if 0 < autoBet then autoBet else 1))
    if 0 < bet then some bet else none

/-- The typed early-exit replies of the `/slots` handler. -/
inductive SpinRefusal
  | userNotFound
  | negativeBalance
  | noChips
  | invalidBet
  | insufficientFunds
deriving DecidableEq

/-- Settlement data of a completed paid spin. -/
structure SettleData where
  bet : Nat
  winnings : Nat
  bonus : Nat
  jackpotWin : Nat
  freeSpins : Nat
deriving DecidableEq

/-- Result of one `/slots` invocation.  `crashed` marks an uncaught
`ValueError` from a ledger call made after the bet was committed (the handler
has no try/except there); the accompanying state keeps every change committed
before the failing call. -/
inductive SpinStatus
  | refused (r : SpinRefusal)
  | settled (d : SettleData)
  | crashed
deriving DecidableEq

/-- Steps 10 of the coordinator, shared by paid and free spins: credit positive
winnings (no overdraft parameters), then look up a live win boost and credit
its bonus.  Returns the bonus, or `none` after an uncaught ledger failure
(the state then keeps what was committed before the failure). -/
def creditWinnings (s : DBState) (uid now : Nat) (winnings : Nat) :
    Option Nat × DBState :=
  if winnings = 0 then (some 0, s)
  else
    match adjustBalance s uid (winnings : Int) false 0 with
    | none => (none, s)
    | some p =>
      let wb := applyWinBoost p.2 uid now winnings
      if wb.1 = 0 then (some 0, wb.2)
      else
        match adjustBalance wb.2 uid (wb.1 : Int) false 0 with
        | none => (none, wb.2)
        | some q => (some wb.1, q.2)

/-- Steps 10-12 of the coordinator (bot.py lines 732-780): winnings and boost
crediting, spin recording, jackpot reset and pool re-read. -/
def settleTail (m : Machine) (s3 : DBState) (uid betN : Nat)
    (outcome : Outcome) (now : Nat) : SpinStatus × DBState :=
  match creditWinnings s3 uid now outcome.winnings with
  | (none, sc) => (.crashed, sc)
  | (some bonus, s4) =>
    let s5 := recordSpin s4 uid m.key betN (outcome.winnings + bonus) false now
    let s6 :=
      if m.supportsJackpot ∧ 0 < outcome.jackpotWin then (resetJackpot s5 m.key).2
      else s5
    let s7 := if m.supportsJackpot then (getJackpot s6 m.key).2 else s6
    (.settled ⟨betN, outcome.winnings, bonus, outcome.jackpotWin,
      outcome.freeSpins⟩, s7)

/-- Steps 7-9 of the coordinator: the jackpot contribution happens before the
evaluation, which therefore sees the post-contribution pool total. -/
def settleCore (m : Machine) (s : DBState) (uid betN : Nat)
    (draw : Sym × Sym × Sym) (now : Nat) : SpinStatus × DBState :=
  let contribution := if m.supportsJackpot then m.jackpotContribution betN else 0
  let jp := if m.supportsJackpot then addToJackpot s m.key contribution else (0, s)
  let outcome := m.evaluate draw.1 draw.2.1 draw.2.2 betN jp.1
  settleTail m jp.2 uid betN outcome now

/-- `CasinoBot.slots` (bot.py lines 647-780): one paid spin up to and
including step 12 (free-spin cascades are settled by `runFreeSpins`).  Steps:
load player, resolve credit line, balance gate, resolve bet, deduct bet (with
overdraft if a credit line is active), clear a consumed credit line, then
`settleCore`. -/
def slotsSettle (m : Machine) (s : DBState) (uid : Nat) (betArg : Option Int)
    (draw : Sym × Sym × Sym) (now : Nat) : SpinStatus × DBState :=
  match getUser s uid with
  | none => (.refused .userNotFound, s)
  | some user =>
    let creditState := getCreditLineState s uid
    let creditLimit := creditState.getD 0
    if user.balance ≤ 0 ∧
        ¬(creditState.isSome ∧ 0 < user.balance + (creditLimit : Int)) then
      if creditState.isSome ∧ user.balance < 0 then (.refused .negativeBalance, s)
      else (.refused .noChips, s)
    else
      match resolveBet user.balance betArg with
      | none => (.refused .invalidBet, s)
      | some bet =>
        match adjustBalance s uid (-bet) creditState.isSome creditLimit with
        | none => (.refused .insufficientFunds, s)
        | some (balanceAfterBet, s1) =>
          let s2 :=
            if creditState.isSome ∧ balanceAfterBet < 0 then
              clearEffect s1 uid effectKeyCreditLine
            else s1
          settleCore m s2 uid bet.toNat draw now

/-- `CasinoBot._run_free_spins` (bot.py lines 1123-1173): `count` zero-bet
spins of the same machine, each with `jackpot_balance = 0`, crediting winnings
and boost bonus and appending a free-spin record; an uncaught ledger failure
aborts the remaining cascade (flag `false`).  Returns the accumulated total
winnings.  The RNG draws are the `draws` input. -/
def runFreeSpins (m : Machine) (uid now : Nat) :
    Nat → List (Sym × Sym × Sym) → DBState → DBState × Nat × Bool
  | 0, _, s => (s, 0, true)
  | count + 1, draws, s =>
    let d := draws.headD ("", "", "")
    let outcome := m.evaluate d.1 d.2.1 d.2.2 0 0
    match creditWinnings s uid now outcome.winnings with
    | (none, sc) => (sc, 0, false)
    | (some bonus, s1) =>
      let s2 := recordSpin s1 uid m.key 0 (outcome.winnings + bonus) true now
      let rest := runFreeSpins m uid now count draws.tail s2
      (rest.1, outcome.winnings + bonus + rest.2.1, rest.2.2)

/-- One whole `/slots` request: settle the paid spin, then run the awarded
free-spin cascade (bot.py lines 782-790). -/
def slots (m : Machine) (s : DBState) (uid : Nat) (betArg : Option Int)
    (draw : Sym × Sym × Sym) (freeDraws : List (Sym × Sym × Sym)) (now : Nat) :
    SpinStatus × DBState :=
  match slotsSettle m s uid betArg draw now with
  | (.settled d, s1) =>
    if 0 < d.freeSpins then
      (.settled d, (runFreeSpins m uid now d.freeSpins freeDraws s1).1)
    else (.settled d, s1)
  | other => other

/-- Typed results of `/use`. -/
inductive UseResult
  | itemNotFound
  | itemNotOwned
  | alreadyActive
  | notActivatable
  | activated
  | profileChanged
  | notUsable
deriving DecidableEq

/-- `CasinoBot._get_analytics_access` (bot.py lines 993-1002): read-and-reap
of the analytics effect's expiry. -/
def getAnalyticsAccess (s : DBState) (uid now : Nat) : Option Nat × DBState :=
  match getEffect s uid effectKeyAnalytics with
  | none => (none, s)
  | some e =>
    if e.expiresAt ≤ now then (none, clearEffect s uid effectKeyAnalytics)
    else (some e.expiresAt, s)

/-- `CasinoBot.use_item` (bot.py lines 488-623) for a numeric item id of the
shipped catalog.  Title/icon activation touches only the unmodelled cosmetic
profile table.  A credit line is rejected while one is active; a win boost has
no such check: it consumes a unit and replaces any live effect. -/
def useItem (s : DBState) (uid itemId now : Nat) : UseResult × DBState :=
  match alookup itemId shopItems with
  | none => (.itemNotFound, s)
  | some item =>
    if ¬ hasItem s uid itemId then (.itemNotOwned, s)
    else if item.itemType = "title" ∨ item.itemType = "balance_icon" then
      (.profileChanged, s)
    else if item.itemType = "credit_line" then
      match getCreditLineState s uid with
      | some _ => (.alreadyActive, s)
      | none =>
        match consumeItem s uid itemId with
        | none => (.itemNotOwned, s)
        | some s1 =>
          (.activated, setEffect s1 uid effectKeyCreditLine
            ⟨some itemId, 0, some ⟨(item.creditLimit : Int), 1⟩⟩)
    else if item.itemType = "win_boost" then
      if item.multNum ≤ item.multDen ∨ item.durationSeconds = 0 then
        (.notActivatable, s)
      else
        match consumeItem s uid itemId with
        | none => (.itemNotOwned, s)
        | some s1 =>
          (.activated, setEffect s1 uid effectKeyWinBoost
            ⟨some itemId, now + item.durationSeconds,
              some ⟨(item.multNum : Int), item.multDen⟩⟩)
    else if item.itemType = "analytics_subscription" then
      if item.durationSeconds = 0 then (.notActivatable, s)
      else
        match consumeItem s uid itemId with
        | none => (.itemNotOwned, s)
        | some s1 =>
          match getAnalyticsAccess s1 uid now with
          | (cur, s2) =>
            let baseExpiry := match cur with
              | some t => max t now
              | none => now
            (.activated, setEffect s2 uid effectKeyAnalytics
              ⟨some itemId, baseExpiry + item.durationSeconds, none⟩)
    else (.notUsable, s)

/-- Typed results of `/buy`. -/
inductive BuyResult
  | itemNotFound
  | userNotFound
  | alreadyOwned
  | insufficientFunds
  | purchased
deriving DecidableEq

/-- `CasinoBot.buy` (bot.py lines 441-486). -/
def buy (s : DBState) (uid itemId : Nat) : BuyResult × DBState :=
  match alookup itemId shopItems with
  | none => (.itemNotFound, s)
  | some item =>
    match getUser s uid with
    | none => (.userNotFound, s)
    | some _ =>
      if ¬ item.stackable ∧ hasItem s uid itemId then (.alreadyOwned, s)
      else
        match adjustBalance s uid (-(item.price : Int)) false 0 with
        | none => (.insufficientFunds, s)
        | some (_, s1) => (.purchased, addItemToInventory s1 uid itemId item.stackable)

/-- `CasinoBot.daily` (bot.py lines 149-177): cooldown gate, then an
unguarded `adjust_balance` (a failure there is an uncaught error, leaving the
timestamp unset), then the timestamp write. -/
def daily (s : DBState) (uid now : Nat) : DBState :=
  match getUser s uid with
  | none => s
  | some user =>
    let onCooldown : Bool := match user.lastDaily with
      | some t => now - t < dailyCooldownSeconds
      | none => false
    if onCooldown then s
    else
      match adjustBalance s uid dailyBonus false 0 with
      | none => s
      | some (_, s1) => setDailyTimestamp s1 uid now

/-- `CasinoBot.give` (bot.py lines 199-259): positive amount, both registered,
self-transfer rejected at the command layer, then `CasinoDatabase.transfer`
(recipient resolution by username is collapsed to the recipient's id). -/
def give (s : DBState) (senderId recipientId : Nat) (amount : Int) : DBState :=
  if amount ≤ 0 then s
  else
    match getUser s senderId, getUser s recipientId with
    | some _, some _ =>
      if recipientId = senderId then s
      else
        match transfer s senderId recipientId amount with
        | none => s
        | some (_, s1) => s1
    | _, _ => s

/-- `CasinoBot.start_casino` (bot.py lines 109-128): create the player with
the starting balance unless already registered. -/
def register (s : DBState) (uid : Nat) : DBState :=
  match getUser s uid with
  | some _ => s
  | none => createUser s uid startingBalance

/-- One player-visible operation of the bot (the spin carries its machine, the
drawn symbols and the free-spin draws as explicit inputs in place of the RNG). -/
inductive Op
  | register (uid : Nat)
  | daily (uid now : Nat)
  | give (senderId recipientId : Nat) (amount : Int)
  | buy (uid itemId : Nat)
  | useItem (uid itemId now : Nat)
  | spin (m : Machine) (uid : Nat) (betArg : Option Int)
      (draw : Sym × Sym × Sym) (freeDraws : List (Sym × Sym × Sym)) (now : Nat)

/-- The state transition of one operation (every typed failure and uncaught
error leaves exactly the already-committed state). -/
def step (s : DBState) : Op → DBState
  | .register uid => register s uid
  | .daily uid now => daily s uid now
  | .give senderId recipientId amount => give s senderId recipientId amount
  | .buy uid itemId => (buy s uid itemId).2
  | .useItem uid itemId now => (useItem s uid itemId now).2
  | .spin m uid betArg draw freeDraws now =>
    (slots m s uid betArg draw freeDraws now).2

/-- Run a sequence of operations from the empty store. -/
def run (ops : List Op) : DBState := ops.foldl step emptyDB

/-- The balance invariant that actually holds of the ledger: every stored
credit line has a limit of at most the shipped 500, and every registered
balance is at least -500, and at least the negation of the active credit
line's limit while one is active.  (A balance below zero with no active line
is reachable: consuming a credit line clears it and leaves the debt.) -/
def balInv (s : DBState) : Prop :=
  (∀ uid L, getCreditLineState s uid = some L → L ≤ 500) ∧
  (∀ uid r, alookup uid s.users = some r →
    -500 ≤ r.balance ∧
    ∀ L, getCreditLineState s uid = some L → -(L : Int) ≤ r.balance)

/-- The Classic decision procedure exactly as claim C8 words it (special
table lookup first, then three-of-a-kind ×5, then two-distinct ×2, else 0),
for comparison with `FruitMachine.evaluate`. -/
def classicSpecWinnings (table : List ((Sym × Sym × Sym) × Nat))
    (a b c : Sym) (bet : Nat) : Nat :=
  match alookup (a, b, c) table with
  | some p => bet * p
  | none =>
    if a = b ∧ b = c then bet * 5
    else if distinctCount a b c = 2 then bet * 2
    else 0

/-- The auto-bet exactly as claim C9 words it: `clamp(round(balance×0.05),
1, 1000)` with round-to-nearest.  `round(balance/20) = floor((2·balance+20)/40)`
(half rounds up; every nearest-integer convention agrees at the
counterexample value 1.5). -/
def autoBetRoundSpec (balance : Int) : Int :=
  max 1 (min 1000 (Int.fdiv (2 * balance + 20) 40))

/-- A store with one registered player of balance 50 (claim C3 scenario). -/
def c3State : DBState := ⟨[(7, ⟨50, none⟩)], [], [], [], []⟩

/-- A store with one registered player of balance 1000 (claims C1/C8). -/
def c1State : DBState := ⟨[(7, ⟨1000, none⟩)], [], [], [], []⟩

/-- A store where player 5 holds one win-boost amulet in inventory while a
win-boost effect is live (expiry 300, multiplier 6/5) — claim C6. -/
def c6ActiveState : DBState :=
  ⟨[(5, ⟨100, none⟩)], [], [((5, 21), 1)],
    [((5, effectKeyWinBoost), ⟨some 21, 300, some ⟨6, 5⟩⟩)], []⟩

/-- A store where player 4 holds two win-boost amulets and no live effect. -/
def c6FreshState : DBState := ⟨[], [], [((4, 21), 2)], [], []⟩

/-- A store with one registered player of balance 0 (claim C7 witness). -/
def c7State : DBState := ⟨[(9, ⟨0, none⟩)], [], [], [], []⟩

/-- A store with one registered player of balance 100 (claim C10 witness). -/
def c10State : DBState := ⟨[(1, ⟨100, none⟩)], [], [], [], []⟩

/-- An operation sequence realising the spec's own credit-line scenario from
the fresh store: six players register, five transfer their chips to player 1,
who buys (5000) and activates the credit line (limit 500), transfers down to
balance 50 and then bets 400 on a losing fruit spin.  The deduction succeeds
(−350 ≥ −500) and the credit line is cleared at once. -/
def c2Ops : List Op :=
  [.register 1, .register 2, .register 3, .register 4, .register 5,
   .register 6,
   .give 2 1 999, .give 3 1 999, .give 4 1 999, .give 5 1 999, .give 6 1 999,
   .buy 1 20, .useItem 1 20 0, .give 1 2 945,
   .spin fruitMachine 1 (some 400) ("🍒", "🍋", "🍊") [] 0]

theorem alookup_aerase_self {α β : Type} [DecidableEq α] (k : α)
    (l : List (α × β)) : alookup k (aerase k l) = none := by
  induction l with
  | nil => rfl
  | cons p rest ih =>
    obtain ⟨k', v⟩ := p
    by_cases h : k' = k
    · simp [aerase, h, ih]
    · simp [aerase, h, alookup, ih]

theorem alookup_aerase_ne {α β : Type} [DecidableEq α] {k k' : α}
    (h : k' ≠ k) (l : List (α × β)) : alookup k' (aerase k l) = alookup k' l := by
  induction l with
  | nil => rfl
  | cons p rest ih =>
    obtain ⟨k0, v⟩ := p
    by_cases h0 : k0 = k
    · subst h0
      simp [aerase, alookup, Ne.symm h, ih]
    · by_cases h1 : k0 = k'
      · simp [aerase, h0, alookup, h1, h]
      · simp [aerase, h0, alookup, h1, ih]

theorem alookup_aset_self {α β : Type} [DecidableEq α] (k : α) (v : β)
    (l : List (α × β)) : alookup k (aset k v l) = some v := by
  simp [aset, alookup]

theorem alookup_aset_ne {α β : Type} [DecidableEq α] {k k' : α}
    (h : k' ≠ k) (v : β) (l : List (α × β)) :
    alookup k' (aset k v l) = alookup k' l := by
  simp [aset, alookup, Ne.symm h, alookup_aerase_ne h]

theorem adjustBalance_spec {s : DBState} {uid : Nat} {delta : Int} {allow : Bool}
    {limit : Nat} {b : Int} {s' : DBState}
    (h : adjustBalance s uid delta allow limit = some (b, s')) :
    ∃ r, alookup uid s.users = some r ∧ b = r.balance + delta ∧
      (if allow then -(limit : Int) else 0) ≤ b ∧
      s' = { s with users := aset uid { r with balance := b } s.users } := by
  unfold adjustBalance at h
  cases hr : alookup uid s.users with
  | none => rw [hr] at h; exact absurd h (by simp)
  | some r =>
    rw [hr] at h
    dsimp only at h
    by_cases hlt : r.balance + delta < (if allow = true then -(limit : Int) else 0)
    · rw [if_pos hlt] at h
      exact absurd h (by simp)
    · rw [if_neg hlt] at h
      obtain ⟨hb, hs⟩ := Prod.mk.injEq .. |>.mp (Option.some.inj h)
      subst hb
      exact ⟨r, rfl, rfl, not_lt.mp hlt, hs.symm⟩

theorem getCreditLineState_eq (s : DBState) (uid : Nat) :
    getCreditLineState s uid =
      (alookup (uid, effectKeyCreditLine) s.effects).map limitOfEffect := rfl

theorem adjustBalance_frame {s : DBState} {uid : Nat} {delta : Int}
    {allow : Bool} {limit : Nat} {b : Int} {s' : DBState}
    (h : adjustBalance s uid delta allow limit = some (b, s')) :
    s'.jackpots = s.jackpots ∧ s'.inventory = s.inventory ∧
      s'.effects = s.effects ∧ s'.spins = s.spins := by
  obtain ⟨r, _, _, _, hs⟩ := adjustBalance_spec h
  subst hs
  exact ⟨rfl, rfl, rfl, rfl⟩

theorem balInv_of_fields {s s' : DBState} (hu : s'.users = s.users)
    (he : s'.effects = s.effects) (h : balInv s) : balInv s' := by
  obtain ⟨h1, h2⟩ := h
  constructor
  · intro uid L hL
    apply h1 uid L
    rw [getCreditLineState_eq] at hL ⊢
    rw [he] at hL
    exact hL
  · intro uid r hr
    rw [hu] at hr
    obtain ⟨hb, hc⟩ := h2 uid r hr
    refine ⟨hb, fun L hL => hc L ?_⟩
    rw [getCreditLineState_eq] at hL ⊢
    rw [he] at hL
    exact hL

theorem balInv_adjust_noOverdraft {s : DBState} {uid : Nat} {delta b : Int}
    {s' : DBState} (h : adjustBalance s uid delta false 0 = some (b, s'))
    (hinv : balInv s) : balInv s' := by
  obtain ⟨r, hr, hb, hmin, hs⟩ := adjustBalance_spec h
  subst hs
  obtain ⟨h1, h2⟩ := hinv
  have hb0 : (0 : Int) ≤ b := by simpa using hmin
  constructor
  · exact h1
  · intro uid' r' hr'
    by_cases huid : uid' = uid
    · subst huid
      rw [alookup_aset_self] at hr'
      have hre := Option.some.inj hr'
      subst hre
      refine ⟨?_, fun L _ => ?_⟩
      · show (-500 : Int) ≤ b
        omega
      · show -(L : Int) ≤ b
        omega
    · rw [alookup_aset_ne huid] at hr'
      obtain ⟨hbal, hcr⟩ := h2 uid' r' hr'
      exact ⟨hbal, fun L hL => hcr L hL⟩

theorem balInv_adjust_credit {s : DBState} {uid : Nat} {delta b : Int} {L : Nat}
    {s' : DBState} (hcred : getCreditLineState s uid = some L)
    (h : adjustBalance s uid delta true L = some (b, s'))
    (hinv : balInv s) : balInv s' := by
  obtain ⟨r, hr, hb, hmin, hs⟩ := adjustBalance_spec h
  subst hs
  obtain ⟨h1, h2⟩ := hinv
  have hL500 : L ≤ 500 := h1 uid L hcred
  have hbL : -(L : Int) ≤ b := by simpa using hmin
  constructor
  · exact h1
  · intro uid' r' hr'
    by_cases huid : uid' = uid
    · subst huid
      rw [alookup_aset_self] at hr'
      have hre := Option.some.inj hr'
      subst hre
      refine ⟨?_, fun L' hL' => ?_⟩
      · show (-500 : Int) ≤ b
        omega
      · have hL2 : getCreditLineState s uid' = some L' := hL'
        have hLL : L' = L := Option.some.inj (hL2.symm.trans hcred)
        show -(L' : Int) ≤ b
        omega
    · rw [alookup_aset_ne huid] at hr'
      obtain ⟨hbal, hcr⟩ := h2 uid' r' hr'
      exact ⟨hbal, fun L' hL' => hcr L' hL'⟩

theorem balInv_clearEffect {s : DBState} (uid : Nat) (t : String)
    (hinv : balInv s) : balInv (clearEffect s uid t) := by
  obtain ⟨h1, h2⟩ := hinv
  constructor
  · intro uid' L hL
    rw [getCreditLineState_eq] at hL
    by_cases hk : ((uid', effectKeyCreditLine) : Nat × String) = (uid, t)
    · rw [show (clearEffect s uid t).effects = aerase (uid, t) s.effects from rfl,
        ← hk, alookup_aerase_self] at hL
      exact absurd hL (by simp)
    · rw [show (clearEffect s uid t).effects = aerase (uid, t) s.effects from rfl,
        alookup_aerase_ne hk] at hL
      exact h1 uid' L hL
  · intro uid' r hr
    obtain ⟨hbal, hcr⟩ := h2 uid' r hr
    refine ⟨hbal, fun L hL => ?_⟩
    rw [getCreditLineState_eq] at hL
    by_cases hk : ((uid', effectKeyCreditLine) : Nat × String) = (uid, t)
    · rw [show (clearEffect s uid t).effects = aerase (uid, t) s.effects from rfl,
        ← hk, alookup_aerase_self] at hL
      exact absurd hL (by simp)
    · rw [show (clearEffect s uid t).effects = aerase (uid, t) s.effects from rfl,
        alookup_aerase_ne hk] at hL
      exact hcr L hL

theorem balInv_setEffect_noncredit {s : DBState} (uid : Nat) {t : String}
    (e : EffectRec) (ht : t ≠ effectKeyCreditLine) (hinv : balInv s) :
    balInv (setEffect s uid t e) := by
  obtain ⟨h1, h2⟩ := hinv
  have hk : ∀ uid' : Nat, ((uid', effectKeyCreditLine) : Nat × String) ≠ (uid, t) := by
    intro uid' hc
    exact ht ((Prod.mk.injEq .. |>.mp hc).2.symm)
  constructor
  · intro uid' L hL
    rw [getCreditLineState_eq,
      show (setEffect s uid t e).effects = aset (uid, t) e s.effects from rfl,
      alookup_aset_ne (hk uid')] at hL
    exact h1 uid' L hL
  · intro uid' r hr
    obtain ⟨hbal, hcr⟩ := h2 uid' r hr
    refine ⟨hbal, fun L hL => ?_⟩
    rw [getCreditLineState_eq,
      show (setEffect s uid t e).effects = aset (uid, t) e s.effects from rfl,
      alookup_aset_ne (hk uid')] at hL
    exact hcr L hL

theorem balInv_setEffect_credit {s : DBState} {uid : Nat} {e : EffectRec}
    (hlim : limitOfEffect e ≤ 500)
    (hbal : ∀ r, alookup uid s.users = some r →
      -(limitOfEffect e : Int) ≤ r.balance)
    (hinv : balInv s) : balInv (setEffect s uid effectKeyCreditLine e) := by
  obtain ⟨h1, h2⟩ := hinv
  constructor
  · intro uid' L hL
    rw [getCreditLineState_eq, show (setEffect s uid effectKeyCreditLine e).effects
      = aset (uid, effectKeyCreditLine) e s.effects from rfl] at hL
    by_cases hk : ((uid', effectKeyCreditLine) : Nat × String) =
        (uid, effectKeyCreditLine)
    · rw [hk, alookup_aset_self] at hL
      have : limitOfEffect e = L := by simpa using hL
      omega
    · rw [alookup_aset_ne hk] at hL
      exact h1 uid' L hL
  · intro uid' r hr
    obtain ⟨hb, hcr⟩ := h2 uid' r hr
    refine ⟨hb, fun L hL => ?_⟩
    rw [getCreditLineState_eq, show (setEffect s uid effectKeyCreditLine e).effects
      = aset (uid, effectKeyCreditLine) e s.effects from rfl] at hL
    by_cases hk : ((uid', effectKeyCreditLine) : Nat × String) =
        (uid, effectKeyCreditLine)
    · have huid : uid' = uid := (Prod.mk.injEq .. |>.mp hk).1
      subst huid
      rw [hk, alookup_aset_self] at hL
      have hLe : limitOfEffect e = L := by simpa using hL
      subst hLe
      exact hbal r hr
    · rw [alookup_aset_ne hk] at hL
      exact hcr L hL

theorem getActiveWinBoost_frame (s : DBState) (uid now : Nat) :
    ((getActiveWinBoost s uid now).2.users = s.users ∧
      (getActiveWinBoost s uid now).2.jackpots = s.jackpots ∧
      (getActiveWinBoost s uid now).2.inventory = s.inventory ∧
      (getActiveWinBoost s uid now).2.spins = s.spins) ∧
    ((getActiveWinBoost s uid now).2 = s ∨
      (getActiveWinBoost s uid now).2 = clearEffect s uid effectKeyWinBoost) := by
  unfold getActiveWinBoost
  cases getEffect s uid effectKeyWinBoost with
  | none => exact ⟨⟨rfl, rfl, rfl, rfl⟩, Or.inl rfl⟩
  | some e =>
    dsimp only
    by_cases h : e.expiresAt ≤ now
    · rw [if_pos h]
      exact ⟨⟨rfl, rfl, rfl, rfl⟩, Or.inr rfl⟩
    · rw [if_neg h]
      exact ⟨⟨rfl, rfl, rfl, rfl⟩, Or.inl rfl⟩

theorem applyWinBoost_frame (s : DBState) (uid now w : Nat) :
    ((applyWinBoost s uid now w).2.users = s.users ∧
      (applyWinBoost s uid now w).2.jackpots = s.jackpots ∧
      (applyWinBoost s uid now w).2.inventory = s.inventory ∧
      (applyWinBoost s uid now w).2.spins = s.spins) ∧
    ((applyWinBoost s uid now w).2 = s ∨
      (applyWinBoost s uid now w).2 = clearEffect s uid effectKeyWinBoost) := by
  unfold applyWinBoost
  by_cases hw : w = 0
  · rw [if_pos hw]
    exact ⟨⟨rfl, rfl, rfl, rfl⟩, Or.inl rfl⟩
  · rw [if_neg hw]
    obtain ⟨hframe, hcases⟩ := getActiveWinBoost_frame s uid now
    cases hb : getActiveWinBoost s uid now with
    | mk fst snd =>
      rw [hb] at hframe hcases
      cases fst with
      | none => exact ⟨hframe, hcases⟩
      | some p =>
        dsimp only
        by_cases hm : p.2.num ≤ (p.2.den : Int)
        · rw [if_pos hm]
          exact ⟨hframe, hcases⟩
        · rw [if_neg hm]
          exact ⟨hframe, hcases⟩

theorem balInv_applyWinBoost {s : DBState} (uid now w : Nat)
    (hinv : balInv s) : balInv (applyWinBoost s uid now w).2 := by
  obtain ⟨_, hcases⟩ := applyWinBoost_frame s uid now w
  cases hcases with
  | inl h => rw [h]; exact hinv
  | inr h => rw [h]; exact balInv_clearEffect uid effectKeyWinBoost hinv

theorem creditWinnings_frame (s : DBState) (uid now w : Nat) :
    (creditWinnings s uid now w).2.jackpots = s.jackpots ∧
      (creditWinnings s uid now w).2.inventory = s.inventory ∧
      (creditWinnings s uid now w).2.spins = s.spins := by
  unfold creditWinnings
  by_cases hw : w = 0
  · rw [if_pos hw]
    exact ⟨rfl, rfl, rfl⟩
  · rw [if_neg hw]
    cases h1 : adjustBalance s uid (w : Int) false 0 with
    | none => exact ⟨rfl, rfl, rfl⟩
    | some p =>
      obtain ⟨hj1, hi1, _, hs1⟩ := adjustBalance_frame (show
        adjustBalance s uid (w : Int) false 0 = some (p.1, p.2) by rw [h1])
      obtain ⟨⟨_, hj2, hi2, hs2⟩, _⟩ := applyWinBoost_frame p.2 uid now w
      dsimp only
      by_cases hb : (applyWinBoost p.2 uid now w).1 = 0
      · rw [if_pos hb]
        exact ⟨hj2.trans hj1, hi2.trans hi1, hs2.trans hs1⟩
      · rw [if_neg hb]
        cases h3 : adjustBalance (applyWinBoost p.2 uid now w).2 uid
            ((applyWinBoost p.2 uid now w).1 : Int) false 0 with
        | none => exact ⟨hj2.trans hj1, hi2.trans hi1, hs2.trans hs1⟩
        | some q =>
          obtain ⟨hj3, hi3, _, hs3⟩ := adjustBalance_frame (show
            adjustBalance (applyWinBoost p.2 uid now w).2 uid
              ((applyWinBoost p.2 uid now w).1 : Int) false 0 = some (q.1, q.2)
            by rw [h3])
          exact ⟨(hj3.trans hj2).trans hj1, (hi3.trans hi2).trans hi1,
            (hs3.trans hs2).trans hs1⟩

theorem balInv_creditWinnings {s : DBState} (uid now w : Nat)
    (hinv : balInv s) : balInv (creditWinnings s uid now w).2 := by
  unfold creditWinnings
  by_cases hw : w = 0
  · rw [if_pos hw]
    exact hinv
  · rw [if_neg hw]
    cases h1 : adjustBalance s uid (w : Int) false 0 with
    | none => exact hinv
    | some p =>
      have hinv1 : balInv p.2 := balInv_adjust_noOverdraft (show
        adjustBalance s uid (w : Int) false 0 = some (p.1, p.2) by rw [h1]) hinv
      have hinv2 : balInv (applyWinBoost p.2 uid now w).2 :=
        balInv_applyWinBoost uid now w hinv1
      dsimp only
      by_cases hb : (applyWinBoost p.2 uid now w).1 = 0
      · rw [if_pos hb]
        exact hinv2
      · rw [if_neg hb]
        cases h3 : adjustBalance (applyWinBoost p.2 uid now w).2 uid
            ((applyWinBoost p.2 uid now w).1 : Int) false 0 with
        | none => exact hinv2
        | some q =>
          exact balInv_adjust_noOverdraft (show
            adjustBalance (applyWinBoost p.2 uid now w).2 uid
              ((applyWinBoost p.2 uid now w).1 : Int) false 0 = some (q.1, q.2)
            by rw [h3]) hinv2

theorem balInv_transfer {s : DBState} {senderId recipientId : Nat}
    {amount : Int} {res : Int × Int} {s' : DBState}
    (hne : recipientId ≠ senderId)
    (h : transfer s senderId recipientId amount = some (res, s'))
    (hinv : balInv s) : balInv s' := by
  unfold transfer at h
  by_cases hpos : amount ≤ 0
  · rw [if_pos hpos] at h
    exact absurd h (by simp)
  · rw [if_neg hpos] at h
    cases hsr : alookup senderId s.users with
    | none => rw [hsr] at h; exact absurd h (by simp)
    | some sr =>
      cases hrr : alookup recipientId s.users with
      | none => rw [hsr, hrr] at h; exact absurd h (by simp)
      | some rr =>
        rw [hsr, hrr] at h
        dsimp only at h
        by_cases hlt : sr.balance < amount
        · rw [if_pos hlt] at h
          exact absurd h (by simp)
        · rw [if_neg hlt] at h
          obtain ⟨_, hs⟩ := Prod.mk.injEq .. |>.mp (Option.some.inj h)
          subst hs
          obtain ⟨h1, h2⟩ := hinv
          refine ⟨h1, fun uid r hr => ?_⟩
          dsimp only at hr
          by_cases hb : uid = recipientId
          · subst hb
            rw [alookup_aset_self] at hr
            have hre := Option.some.inj hr
            subst hre
            obtain ⟨hbal, hcr⟩ := h2 uid rr hrr
            refine ⟨?_, fun L hL => ?_⟩
            · show (-500 : Int) ≤ rr.balance + amount
              omega
            · have := hcr L hL
              show -(L : Int) ≤ rr.balance + amount
              omega
          · rw [alookup_aset_ne hb] at hr
            by_cases ha : uid = senderId
            · subst ha
              rw [alookup_aset_self] at hr
              have hre := Option.some.inj hr
              subst hre
              refine ⟨?_, fun L hL => ?_⟩
              · show (-500 : Int) ≤ sr.balance - amount
                omega
              · show -(L : Int) ≤ sr.balance - amount
                omega
            · rw [alookup_aset_ne ha] at hr
              obtain ⟨hbal, hcr⟩ := h2 uid r hr
              exact ⟨hbal, fun L hL => hcr L hL⟩

theorem balInv_createUser {s : DBState} (uid : Nat) (hinv : balInv s) :
    balInv (createUser s uid startingBalance) := by
  obtain ⟨h1, h2⟩ := hinv
  refine ⟨h1, fun uid' r hr => ?_⟩
  by_cases huid : uid' = uid
  · subst huid
    rw [show (createUser s uid' startingBalance).users =
      aset uid' ⟨startingBalance, none⟩ s.users from rfl,
      alookup_aset_self] at hr
    have hre := Option.some.inj hr
    subst hre
    refine ⟨?_, fun L hL => ?_⟩
    · show (-500 : Int) ≤ startingBalance
      norm_num [startingBalance]
    · show -(L : Int) ≤ startingBalance
      have : (0 : Int) ≤ (L : Int) := by positivity
      norm_num [startingBalance]
      omega
  · rw [show (createUser s uid startingBalance).users =
      aset uid ⟨startingBalance, none⟩ s.users from rfl,
      alookup_aset_ne huid] at hr
    obtain ⟨hbal, hcr⟩ := h2 uid' r hr
    exact ⟨hbal, fun L hL => hcr L hL⟩

theorem balInv_setDailyTimestamp {s : DBState} (uid t : Nat) (hinv : balInv s) :
    balInv (setDailyTimestamp s uid t) := by
  unfold setDailyTimestamp
  cases hu : alookup uid s.users with
  | none => exact hinv
  | some r =>
    obtain ⟨h1, h2⟩ := hinv
    refine ⟨h1, fun uid' r' hr' => ?_⟩
    by_cases huid : uid' = uid
    · subst huid
      rw [show ({ s with users := aset uid' { r with lastDaily := some t } s.users }
        : DBState).users = aset uid' { r with lastDaily := some t } s.users
        from rfl, alookup_aset_self] at hr'
      have hre := Option.some.inj hr'
      subst hre
      obtain ⟨hbal, hcr⟩ := h2 uid' r hu
      exact ⟨hbal, fun L hL => hcr L hL⟩
    · rw [show ({ s with users := aset uid { r with lastDaily := some t } s.users }
        : DBState).users = aset uid { r with lastDaily := some t } s.users
        from rfl, alookup_aset_ne huid] at hr'
      obtain ⟨hbal, hcr⟩ := h2 uid' r' hr'
      exact ⟨hbal, fun L hL => hcr L hL⟩

theorem shopItems_credit_500 {itemId : Nat} {item : ShopItem}
    (h : alookup itemId shopItems = some item)
    (ht : item.itemType = "credit_line") : item.creditLimit = 500 := by
  simp only [shopItems, alookup] at h
  split_ifs at h <;>
    injection h with h2 <;> subst h2 <;>
      first | rfl | exact absurd ht (by decide)

theorem consumeItem_frame {s : DBState} {uid itemId : Nat} {s' : DBState}
    (h : consumeItem s uid itemId = some s') :
    s'.users = s.users ∧ s'.jackpots = s.jackpots ∧ s'.effects = s.effects ∧
      s'.spins = s.spins := by
  unfold consumeItem at h
  cases hq : alookup (uid, itemId) s.inventory with
  | none => rw [hq] at h; exact absurd h (by simp)
  | some q =>
    rw [hq] at h
    dsimp only at h
    by_cases h0 : q = 0
    · rw [if_pos h0] at h
      exact absurd h (by simp)
    · rw [if_neg h0] at h
      by_cases h1 : q = 1
      · rw [if_pos h1] at h
        cases Option.some.inj h
        exact ⟨rfl, rfl, rfl, rfl⟩
      · rw [if_neg h1] at h
        cases Option.some.inj h
        exact ⟨rfl, rfl, rfl, rfl⟩

theorem getAnalyticsAccess_cases (s : DBState) (uid now : Nat) :
    (getAnalyticsAccess s uid now).2 = s ∨
      (getAnalyticsAccess s uid now).2 = clearEffect s uid effectKeyAnalytics := by
  unfold getAnalyticsAccess
  cases getEffect s uid effectKeyAnalytics with
  | none => exact Or.inl rfl
  | some e =>
    dsimp only
    by_cases h : e.expiresAt ≤ now
    · rw [if_pos h]
      exact Or.inr rfl
    · rw [if_neg h]
      exact Or.inl rfl

theorem addItemToInventory_frame (s : DBState) (uid itemId : Nat) (st : Bool) :
    (addItemToInventory s uid itemId st).users = s.users ∧
      (addItemToInventory s uid itemId st).effects = s.effects := by
  unfold addItemToInventory
  cases alookup (uid, itemId) s.inventory with
  | none => exact ⟨rfl, rfl⟩
  | some q =>
    dsimp only
    by_cases h : st = true
    · rw [if_pos h]
      exact ⟨rfl, rfl⟩
    · rw [if_neg h]
      exact ⟨rfl, rfl⟩

theorem limitOfEffect_creditVal (i : Option Nat) (c : Nat) :
    limitOfEffect ⟨i, 0, some ⟨(c : Int), 1⟩⟩ = c := by
  simp [limitOfEffect, RatVal.trunc]

theorem balInv_register {s : DBState} (uid : Nat) (hinv : balInv s) :
    balInv (register s uid) := by
  unfold register
  split
  · exact hinv
  · exact balInv_createUser uid hinv

theorem balInv_daily {s : DBState} (uid now : Nat) (hinv : balInv s) :
    balInv (daily s uid now) := by
  unfold daily
  split
  · exact hinv
  · dsimp only
    split
    · exact hinv
    · split
      · exact hinv
      · next p hadj =>
        exact balInv_setDailyTimestamp uid now
          (balInv_adjust_noOverdraft hadj hinv)

theorem balInv_give {s : DBState} (senderId recipientId : Nat) (amount : Int)
    (hinv : balInv s) : balInv (give s senderId recipientId amount) := by
  unfold give
  split
  · exact hinv
  · split
    · split
      · exact hinv
      · next hne =>
        split
        · exact hinv
        · next res s1 htr => exact balInv_transfer hne htr hinv
    · exact hinv

theorem balInv_buy {s : DBState} (uid itemId : Nat) (hinv : balInv s) :
    balInv (buy s uid itemId).2 := by
  unfold buy
  split
  · exact hinv
  · next item _ =>
    split
    · exact hinv
    · split
      · exact hinv
      · split
        · exact hinv
        · next b1 s1 hadj =>
          have hinv1 := balInv_adjust_noOverdraft hadj hinv
          obtain ⟨hu, he⟩ := addItemToInventory_frame s1 uid itemId item.stackable
          exact balInv_of_fields hu he hinv1

theorem balInv_useItem {s : DBState} (uid itemId now : Nat) (hinv : balInv s) :
    balInv (useItem s uid itemId now).2 := by
  unfold useItem
  split
  · exact hinv
  · next item hitem =>
    split
    · exact hinv
    · split
      · exact hinv
      · split
        · -- credit line branch
          rename_i htype
          split
          · exact hinv
          · split
            · exact hinv
            · next s1 hcons =>
              obtain ⟨hu, hj, he, hs⟩ := consumeItem_frame hcons
              have hinv1 : balInv s1 := balInv_of_fields hu he hinv
              have h500 : item.creditLimit = 500 := shopItems_credit_500 hitem htype
              apply balInv_setEffect_credit ?_ ?_ hinv1
              · rw [limitOfEffect_creditVal, h500]
              · intro r hr
                rw [limitOfEffect_creditVal, h500]
                rw [hu] at hr
                obtain ⟨hbal, _⟩ := hinv.2 uid r hr
                exact hbal
        · split
          · -- win boost branch
            split
            · exact hinv
            · split
              · exact hinv
              · next s1 hcons =>
                obtain ⟨hu, hj, he, hs⟩ := consumeItem_frame hcons
                have hinv1 : balInv s1 := balInv_of_fields hu he hinv
                exact balInv_setEffect_noncredit uid _ (by decide) hinv1
          · split
            · -- analytics branch
              split
              · exact hinv
              · split
                · exact hinv
                · next s1 hcons =>
                  obtain ⟨hu, hj, he, hs⟩ := consumeItem_frame hcons
                  have hinv1 : balInv s1 := balInv_of_fields hu he hinv
                  split
                  · next cur s2 hga =>
                    have hinv2 : balInv s2 := by
                      rcases getAnalyticsAccess_cases s1 uid now with hc | hc
                      · rw [hga] at hc
                        dsimp only at hc
                        rw [hc]
                        exact hinv1
                      · rw [hga] at hc
                        dsimp only at hc
                        rw [hc]
                        exact balInv_clearEffect uid effectKeyAnalytics hinv1
                    exact balInv_setEffect_noncredit uid _ (by decide) hinv2
            · exact hinv

theorem getJackpot_frame (s : DBState) (key : String) :
    (getJackpot s key).2.users = s.users ∧ (getJackpot s key).2.inventory =
      s.inventory ∧ (getJackpot s key).2.effects = s.effects ∧
      (getJackpot s key).2.spins = s.spins := by
  unfold getJackpot
  split
  · exact ⟨rfl, rfl, rfl, rfl⟩
  · exact ⟨rfl, rfl, rfl, rfl⟩

theorem addToJackpot_frame (s : DBState) (key : String) (amount : Nat) :
    (addToJackpot s key amount).2.users = s.users ∧
      (addToJackpot s key amount).2.inventory = s.inventory ∧
      (addToJackpot s key amount).2.effects = s.effects ∧
      (addToJackpot s key amount).2.spins = s.spins := by
  unfold addToJackpot
  split
  · exact getJackpot_frame s key
  · split
    · exact ⟨rfl, rfl, rfl, rfl⟩
    · exact ⟨rfl, rfl, rfl, rfl⟩

theorem balInv_settleTail {s3 : DBState} (m : Machine) (uid betN : Nat)
    (outcome : Outcome) (now : Nat) (hinv : balInv s3) :
    balInv (settleTail m s3 uid betN outcome now).2 := by
  unfold settleTail
  split
  · next sc hcw =>
    have hsc : sc = (creditWinnings s3 uid now outcome.winnings).2 := by rw [hcw]
    rw [hsc]
    exact balInv_creditWinnings uid now outcome.winnings hinv
  · next bonus s4 hcw =>
    have hs4 : s4 = (creditWinnings s3 uid now outcome.winnings).2 := by rw [hcw]
    have hinv4 : balInv s4 := by
      rw [hs4]
      exact balInv_creditWinnings uid now outcome.winnings hinv
    have hinv5 : balInv (recordSpin s4 uid m.key betN
        (outcome.winnings + bonus) false now) := balInv_of_fields rfl rfl hinv4
    dsimp only
    split
    · -- the pool is re-read after settlement (jackpot-capable machine)
      split
      · have hinv6 : balInv (resetJackpot (recordSpin s4 uid m.key betN
            (outcome.winnings + bonus) false now) m.key).2 :=
          balInv_of_fields rfl rfl hinv5
        obtain ⟨hu, _, he, _⟩ := getJackpot_frame _ m.key
        exact balInv_of_fields hu he hinv6
      · obtain ⟨hu, _, he, _⟩ := getJackpot_frame _ m.key
        exact balInv_of_fields hu he hinv5
    · split
      · exact balInv_of_fields rfl rfl hinv5
      · exact hinv5

theorem balInv_settleCore {s : DBState} (m : Machine) (uid betN : Nat)
    (draw : Sym × Sym × Sym) (now : Nat) (hinv : balInv s) :
    balInv (settleCore m s uid betN draw now).2 := by
  unfold settleCore
  dsimp only
  apply balInv_settleTail
  split
  · obtain ⟨hu, _, he, _⟩ := addToJackpot_frame s m.key _
    exact balInv_of_fields hu he hinv
  · exact hinv

theorem balInv_slotsSettle {s : DBState} (m : Machine) (uid : Nat)
    (betArg : Option Int) (draw : Sym × Sym × Sym) (now : Nat)
    (hinv : balInv s) : balInv (slotsSettle m s uid betArg draw now).2 := by
  unfold slotsSettle
  split
  · exact hinv
  · next user huser =>
    dsimp only
    split
    · split
      · exact hinv
      · exact hinv
    · split
      · exact hinv
      · next bet hbet =>
        split
        · exact hinv
        · next bab s1 hadj =>
          have hinv1 : balInv s1 := by
            cases hcs : getCreditLineState s uid with
            | none =>
              rw [hcs] at hadj
              simp only [Option.isSome_none, Option.getD_none] at hadj
              exact balInv_adjust_noOverdraft hadj hinv
            | some L =>
              rw [hcs] at hadj
              simp only [Option.isSome_some, Option.getD_some] at hadj
              exact balInv_adjust_credit hcs hadj hinv
          split
          · exact balInv_settleCore m uid _ draw now
              (balInv_clearEffect uid effectKeyCreditLine hinv1)
          · exact balInv_settleCore m uid _ draw now hinv1

theorem balInv_runFreeSpins (m : Machine) (uid now : Nat) :
    ∀ (count : Nat) (draws : List (Sym × Sym × Sym)) (s : DBState),
      balInv s → balInv (runFreeSpins m uid now count draws s).1 := by
  intro count
  induction count with
  | zero => intro draws s hinv; exact hinv
  | succ n ih =>
    intro draws s hinv
    unfold runFreeSpins
    dsimp only
    split
    · next sc hcw =>
      have hsc := congrArg Prod.snd hcw
      dsimp only at hsc
      rw [← hsc]
      exact balInv_creditWinnings uid now _ hinv
    · next bonus s1 hcw =>
      have hs1 := congrArg Prod.snd hcw
      dsimp only at hs1
      have hinv1 : balInv s1 := hs1 ▸ balInv_creditWinnings uid now _ hinv
      exact ih _ _ (balInv_of_fields rfl rfl hinv1)

theorem balInv_slots {s : DBState} (m : Machine) (uid : Nat)
    (betArg : Option Int) (draw : Sym × Sym × Sym)
    (freeDraws : List (Sym × Sym × Sym)) (now : Nat) (hinv : balInv s) :
    balInv (slots m s uid betArg draw freeDraws now).2 := by
  unfold slots
  split
  · next d s1 hset =>
    have hinv1 : balInv s1 := by
      have hs1 : s1 = (slotsSettle m s uid betArg draw now).2 := by rw [hset]
      rw [hs1]
      exact balInv_slotsSettle m uid betArg draw now hinv
    split
    · exact balInv_runFreeSpins m uid now d.freeSpins freeDraws s1 hinv1
    · exact hinv1
  · exact balInv_slotsSettle m uid betArg draw now hinv

theorem balInv_step (s : DBState) (op : Op) (hinv : balInv s) :
    balInv (step s op) := by
  cases op with
  | register uid => exact balInv_register uid hinv
  | daily uid now => exact balInv_daily uid now hinv
  | give senderId recipientId amount =>
    exact balInv_give senderId recipientId amount hinv
  | buy uid itemId => exact balInv_buy uid itemId hinv
  | useItem uid itemId now => exact balInv_useItem uid itemId now hinv
  | spin m uid betArg draw freeDraws now =>
    exact balInv_slots m uid betArg draw freeDraws now hinv

theorem balInv_emptyDB : balInv emptyDB := by
  constructor
  · intro uid L hL
    simp [getCreditLineState, getEffect, emptyDB, alookup] at hL
  · intro uid r hr
    simp [emptyDB, alookup] at hr

theorem balInv_run (ops : List Op) : balInv (run ops) := by
  unfold run
  have h : ∀ (l : List Op) (s : DBState), balInv s → balInv (l.foldl step s) := by
    intro l
    induction l with
    | nil => intro s hs; exact hs
    | cons op rest ih => intro s hs; exact ih _ (balInv_step s op hs)
  exact h ops emptyDB balInv_emptyDB

theorem settleTail_spins {m : Machine} {s3 : DBState} {uid betN : Nat}
    {outcome : Outcome} {now : Nat} {d : SettleData} {s' : DBState}
    (h : settleTail m s3 uid betN outcome now = (.settled d, s')) :
    d.bet = betN ∧ d.winnings = outcome.winnings ∧
      s'.spins = s3.spins ++
        [⟨uid, m.key, betN, d.winnings + d.bonus, false, now⟩] := by
  unfold settleTail at h
  split at h
  · exact absurd h (by simp)
  · next bonus s4 hcw =>
    dsimp only at h
    obtain ⟨hd, hs⟩ := Prod.mk.injEq .. |>.mp h
    have hd2 := SpinStatus.settled.inj hd
    subst hd2
    have hs4 : s4.spins = s3.spins := by
      have h2 := congrArg Prod.snd hcw
      dsimp only at h2
      rw [← h2]
      exact (creditWinnings_frame s3 uid now outcome.winnings).2.2
    refine ⟨rfl, rfl, ?_⟩
    rw [← hs]
    dsimp only
    have hrec : (recordSpin s4 uid m.key betN (outcome.winnings + bonus)
        false now).spins = s3.spins ++
        [⟨uid, m.key, betN, outcome.winnings + bonus, false, now⟩] := by
      rw [show (recordSpin s4 uid m.key betN (outcome.winnings + bonus)
        false now).spins = s4.spins ++
        [⟨uid, m.key, betN, outcome.winnings + bonus, false, now⟩] from rfl, hs4]
    split
    · split
      · next hjp =>
        rcases hjk : alookup m.key (resetJackpot (recordSpin s4 uid m.key betN
            (outcome.winnings + bonus) false now) m.key).2.jackpots with _ | amt
        all_goals
          rw [show ∀ x : DBState, (getJackpot x m.key).2.spins = x.spins from
            fun x => (getJackpot_frame x m.key).2.2.2]
          exact hrec
      · rw [show ∀ x : DBState, (getJackpot x m.key).2.spins = x.spins from
          fun x => (getJackpot_frame x m.key).2.2.2]
        exact hrec
    · split
      · exact hrec
      · exact hrec

theorem settleCore_spins {m : Machine} {s : DBState} {uid betN : Nat}
    {draw : Sym × Sym × Sym} {now : Nat} {d : SettleData} {s' : DBState}
    (h : settleCore m s uid betN draw now = (.settled d, s')) :
    d.bet = betN ∧ s'.spins = s.spins ++
      [⟨uid, m.key, betN, d.winnings + d.bonus, false, now⟩] := by
  unfold settleCore at h
  dsimp only at h
  obtain ⟨hbet, _, hs⟩ := settleTail_spins h
  refine ⟨hbet, ?_⟩
  rw [hs]
  congr 1
  split
  · exact (addToJackpot_frame s m.key _).2.2.2
  · rfl

theorem slotsSettle_spins {m : Machine} {s : DBState} {uid : Nat}
    {betArg : Option Int} {draw : Sym × Sym × Sym} {now : Nat}
    {d : SettleData} {s' : DBState}
    (h : slotsSettle m s uid betArg draw now = (.settled d, s')) :
    s'.spins = s.spins ++
      [⟨uid, m.key, d.bet, d.winnings + d.bonus, false, now⟩] := by
  unfold slotsSettle at h
  split at h
  · exact absurd h (by simp)
  · next user huser =>
    dsimp only at h
    split at h
    · split at h <;> exact absurd h (by simp)
    · split at h
      · exact absurd h (by simp)
      · next bet hbet =>
        split at h
        · exact absurd h (by simp)
        · next bab s1 hadj =>
          have hs1 : s1.spins = s.spins := (adjustBalance_frame hadj).2.2.2
          obtain ⟨hbetN, hsp⟩ := settleCore_spins h
          rw [hsp, hbetN]
          congr 1
          split
          · exact hs1
          · exact hs1

theorem consumeItem_quantity {s : DBState} {uid itemId : Nat} {s' : DBState}
    (h : consumeItem s uid itemId = some s') :
    getItemQuantity s' uid itemId = getItemQuantity s uid itemId - 1 := by
  unfold consumeItem at h
  cases hq : alookup (uid, itemId) s.inventory with
  | none => rw [hq] at h; exact absurd h (by simp)
  | some q =>
    rw [hq] at h
    dsimp only at h
    by_cases h0 : q = 0
    · rw [if_pos h0] at h
      exact absurd h (by simp)
    · rw [if_neg h0] at h
      by_cases h1 : q = 1
      · rw [if_pos h1] at h
        cases Option.some.inj h
        unfold getItemQuantity
        rw [show ({ s with inventory := aerase (uid, itemId) s.inventory }
          : DBState).inventory = aerase (uid, itemId) s.inventory from rfl,
          alookup_aerase_self, hq, h1]
        rfl
      · rw [if_neg h1] at h
        cases Option.some.inj h
        unfold getItemQuantity
        rw [show ({ s with inventory := aset (uid, itemId) (q - 1) s.inventory }
          : DBState).inventory = aset (uid, itemId) (q - 1) s.inventory from rfl,
          alookup_aset_self, hq]
        rfl

theorem creditWinnings_spec {s : DBState} {uid : Nat} (now w : Nat)
    {r : UserRec} (hr : alookup uid s.users = some r) (hbal : 0 ≤ r.balance) :
    ∃ bonus s', creditWinnings s uid now w = (some bonus, s') ∧
      alookup uid s'.users =
        some ⟨r.balance + (w : Int) + (bonus : Int), r.lastDaily⟩ ∧
      s'.jackpots = s.jackpots ∧ s'.spins = s.spins := by
  unfold creditWinnings
  by_cases hw : w = 0
  · subst hw
    rw [if_pos rfl]
    refine ⟨0, s, rfl, ?_, rfl, rfl⟩
    simpa using hr
  · rw [if_neg hw]
    have hadj : adjustBalance s uid (w : Int) false 0 =
        some (r.balance + (w : Int),
          { s with
            users := aset uid ⟨r.balance + (w : Int), r.lastDaily⟩ s.users })
        := by
      unfold adjustBalance
      rw [hr]
      dsimp only
      rw [if_neg (by simp; omega)]
    rw [hadj]
    dsimp only
    set sA : DBState :=
      { s with users := aset uid ⟨r.balance + (w : Int), r.lastDaily⟩ s.users }
    have hrA : alookup uid sA.users =
        some ⟨r.balance + (w : Int), r.lastDaily⟩ := alookup_aset_self ..
    obtain ⟨⟨hu, hj, _, hsp⟩, _⟩ := applyWinBoost_frame sA uid now w
    by_cases hbz : (applyWinBoost sA uid now w).1 = 0
    · rw [if_pos hbz]
      refine ⟨0, (applyWinBoost sA uid now w).2, rfl, ?_, hj, hsp⟩
      rw [hu, hrA]
      norm_num
    · rw [if_neg hbz]
      have hrB : alookup uid (applyWinBoost sA uid now w).2.users =
          some ⟨r.balance + (w : Int), r.lastDaily⟩ := by rw [hu]; exact hrA
      have hadj2 : adjustBalance (applyWinBoost sA uid now w).2 uid
          ((applyWinBoost sA uid now w).1 : Int) false 0 =
          some (r.balance + (w : Int) + ((applyWinBoost sA uid now w).1 : Int),
            { (applyWinBoost sA uid now w).2 with
              users := aset uid
                ⟨r.balance + (w : Int) + ((applyWinBoost sA uid now w).1 : Int),
                  r.lastDaily⟩ (applyWinBoost sA uid now w).2.users })
        := by
        unfold adjustBalance
        rw [hrB]
        dsimp only
        rw [if_neg (by simp; omega)]
      rw [hadj2]
      refine ⟨(applyWinBoost sA uid now w).1, _, rfl, ?_, ?_, ?_⟩
      · exact alookup_aset_self ..
      · show (applyWinBoost sA uid now w).2.jackpots = s.jackpots
        exact hj
      · show (applyWinBoost sA uid now w).2.spins = s.spins
        exact hsp

theorem runFreeSpins_spec (m : Machine) (uid now : Nat) :
    ∀ (count : Nat) (draws : List (Sym × Sym × Sym)) (s : DBState)
      (r : UserRec), alookup uid s.users = some r → 0 ≤ r.balance →
      ∃ (s' : DBState) (total : Nat) (recs : List SpinRecord),
        runFreeSpins m uid now count draws s = (s', total, true) ∧
        s'.spins = s.spins ++ recs ∧
        recs.length = count ∧
        (∀ rec ∈ recs, rec.playerId = uid ∧ rec.machineKey = m.key ∧
          rec.bet = 0 ∧ rec.wasFreeSpin = true) ∧
        total = (recs.map SpinRecord.totalWin).sum ∧
        s'.jackpots = s.jackpots ∧
        alookup uid s'.users = some ⟨r.balance + (total : Int), r.lastDaily⟩ := by
  intro count
  induction count with
  | zero =>
    intro draws s r hr hbal
    refine ⟨s, 0, [], rfl, by simp, rfl, by simp, by simp, rfl, ?_⟩
    simpa using hr
  | succ n ih =>
    intro draws s r hr hbal
    obtain ⟨bonus, sA, hcw, hrA, hjA, hspA⟩ :=
      creditWinnings_spec now (m.evaluate (draws.headD ("", "", "")).1
        (draws.headD ("", "", "")).2.1 (draws.headD ("", "", "")).2.2 0
        0).winnings hr hbal
    set w := (m.evaluate (draws.headD ("", "", "")).1
      (draws.headD ("", "", "")).2.1 (draws.headD ("", "", "")).2.2 0
      0).winnings with hwdef
    obtain ⟨s', total, recs, hrun, hsp, hlen, hmem, htot, hj, hru⟩ :=
      ih draws.tail (recordSpin sA uid m.key 0 (w + bonus) true now)
        ⟨r.balance + (w : Int) + (bonus : Int), r.lastDaily⟩ hrA (by
          have h0w : (0 : Int) ≤ (w : Int) := by positivity
          have h0b : (0 : Int) ≤ (bonus : Int) := by positivity
          show (0 : Int) ≤ r.balance + (w : Int) + (bonus : Int)
          omega)
    refine ⟨s', w + bonus + total,
      ⟨uid, m.key, 0, w + bonus, true, now⟩ :: recs, ?_, ?_, ?_, ?_, ?_, ?_, ?_⟩
    · unfold runFreeSpins
      dsimp only
      rw [hcw]
      dsimp only
      rw [hrun]
    · rw [hsp, show (recordSpin sA uid m.key 0 (w + bonus) true now).spins =
        sA.spins ++ [⟨uid, m.key, 0, w + bonus, true, now⟩] from rfl, hspA]
      simp
    · simp [hlen]
    · intro rec hrec
      rcases List.mem_cons.mp hrec with h | h
      · subst h
        exact ⟨rfl, rfl, rfl, rfl⟩
      · exact hmem rec h
    · simp only [List.map_cons, List.sum_cons]
      omega
    · rw [hj]
      exact hjA
    · rw [hru]
      congr 2
      push_cast
      ring

theorem fruitSpecial_pos {k : Sym × Sym × Sym} {p : Nat}
    (h : alookup k fruitSpecialPayouts = some p) : p ≠ 0 := by
  simp only [fruitSpecialPayouts, alookup] at h
  split_ifs at h <;> injection h with h2 <;> omega

/-- C1: whenever a paid spin settles (steps 2-12 complete), the coordinator
appends exactly one SpinRecord holding the realized total winnings — base
winnings plus boost bonus — to the spin log (`record_spin` is modelled from
the spec, being absent from the packaged database.py). -/
theorem c1_spin_record_appended {m : Machine} {s : DBState} {uid : Nat}
    {betArg : Option Int} {draw : Sym × Sym × Sym} {now : Nat}
    {d : SettleData} {s' : DBState}
    (h : slotsSettle m s uid betArg draw now = (.settled d, s')) :
    s'.spins = s.spins ++
      [⟨uid, m.key, d.bet, d.winnings + d.bonus, false, now⟩] :=
  slotsSettle_spins h

/-- C1 witness: the happy path completes through step 12 — balance 1000,
bet 100, an all-diamond draw on the fruit machine settles with winnings 5000
and appends the SpinRecord. -/
theorem c1_witness :
    slotsSettle fruitMachine c1State 7 (some 100) ("💎", "💎", "💎") 42 =
      (.settled ⟨100, 5000, 0, 0, 0⟩,
        ⟨[(7, ⟨5900, none⟩)], [], [], [],
          [⟨7, "fruit", 100, 5000, false, 42⟩]⟩) ∧
    (⟨[(7, ⟨5900, none⟩)], [], [], [],
      [⟨7, "fruit", 100, 5000, false, 42⟩]⟩ : DBState).spins =
      c1State.spins ++ [⟨7, fruitMachine.key, 100, 5000 + 0, false, 42⟩] :=
  ⟨by decide,
    @c1_spin_record_appended fruitMachine c1State 7 (some 100)
      ("💎", "💎", "💎") 42 ⟨100, 5000, 0, 0, 0⟩
      ⟨[(7, ⟨5900, none⟩)], [], [], [], [⟨7, "fruit", 100, 5000, false, 42⟩]⟩
      (by decide)⟩

/-- C2 (amended): after any operation sequence from the fresh store, every
stored credit line has limit at most the shipped 500; every registered
balance is at least −500, and at least −L while a credit line with limit L is
active.  (The claim's "balance ≥ 0 otherwise" is false: consuming a credit
line leaves a negative balance with no active line — see the
counterexample.) -/
theorem c2_balance_invariant (ops : List Op) :
    (∀ uid L, getCreditLineState (run ops) uid = some L → L ≤ 500) ∧
    (∀ uid r, alookup uid (run ops).users = some r →
      -500 ≤ r.balance ∧
      ∀ L, getCreditLineState (run ops) uid = some L → -(L : Int) ≤ r.balance) :=
  balInv_run ops

/-- C2 counterexample: the spec's own credit scenario, run from the fresh
store, ends with no active credit line and balance −350 < 0, refuting
"balance ≥ 0 whenever no credit line is active". -/
theorem c2_counterexample :
    getCreditLineState (run c2Ops) 1 = none ∧
    alookup 1 (run c2Ops).users = some ⟨-350, none⟩ ∧
    ¬(0 : Int) ≤ -350 := by
  refine ⟨by decide, by decide, by decide⟩

/-- C2 witness: the invariant theorem applied to the scenario sequence. -/
theorem c2_witness :
    ∀ uid r, alookup uid (run c2Ops).users = some r → -500 ≤ r.balance :=
  fun uid r hr => ((c2_balance_invariant c2Ops).2 uid r hr).1

/-- C3: if the bet deduction fails (InsufficientFunds), the spin handler
returns with the store exactly as it was — no draw is consumed, no jackpot
contribution, no record, no balance change. -/
theorem c3_insufficient_funds_aborts {m : Machine} {s : DBState} {uid : Nat}
    {betArg : Option Int} {draw : Sym × Sym × Sym} {now : Nat} {r : UserRec}
    {bet : Int}
    (huser : getUser s uid = some r)
    (hgate : ¬(r.balance ≤ 0 ∧
      ¬((getCreditLineState s uid).isSome ∧
        0 < r.balance + (((getCreditLineState s uid).getD 0 : Nat) : Int))))
    (hbet : resolveBet r.balance betArg = some bet)
    (hfail : adjustBalance s uid (-bet) (getCreditLineState s uid).isSome
      ((getCreditLineState s uid).getD 0) = none) :
    slotsSettle m s uid betArg draw now = (.refused .insufficientFunds, s) := by
  unfold slotsSettle
  rw [huser]
  dsimp only
  rw [if_neg hgate, hbet]
  dsimp only
  rw [hfail]

/-- C3 witness: balance 50, bet 100, no credit line — the spin is refused
with InsufficientFunds and the store is returned unchanged. -/
theorem c3_witness :
    getUser c3State 7 = some ⟨50, none⟩ ∧
    resolveBet 50 (some 100) = some 100 ∧
    adjustBalance c3State 7 (-100) false 0 = none ∧
    slotsSettle fruitMachine c3State 7 (some 100) ("🍒", "🍋", "🍊") 0 =
      (.refused .insufficientFunds, c3State) :=
  ⟨by decide, by decide, by decide,
    @c3_insufficient_funds_aborts fruitMachine c3State 7 (some 100)
      ("🍒", "🍋", "🍊") 0 ⟨50, none⟩ 100 (by decide) (by decide) (by decide)
      (by decide)⟩

/-- C4: on any WildJackpot machine an all-wild draw pays
bet × jackpotMultiplier plus the entire current pool and flags the whole pool
consumed; `reset_jackpot` then puts the pool back at its configured seed.
Scenario: pool 5000, bet 100, multiplier 60 → 11000, pool reset to 5000. -/
theorem c4_all_wild_jackpot :
    (∀ (m : WildJackpotMachine) (bet pool : Nat),
      m.evaluate m.wild m.wild m.wild bet pool =
        ⟨bet * m.jackpotMultiplier + pool, pool, 0⟩) ∧
    (∀ (s : DBState) (key : String),
      alookup key (resetJackpot s key).2.jackpots = some (jackpotSeeds key)) ∧
    pharaohWild.evaluate "🗿" "🗿" "🗿" 100 5000 = ⟨11000, 5000, 0⟩ ∧
    alookup "pharaoh" (resetJackpot ⟨[], [("pharaoh", 5000)], [], [], []⟩
      "pharaoh").2.jackpots = some 5000 := by
  refine ⟨?_, ?_, by decide, by decide⟩
  · intro m bet pool
    unfold WildJackpotMachine.evaluate
    have hc : [m.wild, m.wild, m.wild].count m.wild = 3 := by
      simp [List.count_cons]
    dsimp only
    rw [if_pos hc]
  · intro s key
    exact alookup_aset_self ..

/-- C5 counterexample: on the shipped pharaoh machine (percent 0.01) a bet of
50 contributes 5, not max(1, floor(50×0.01)) = 1; and a bet of 250
contributes 2, below the claimed minimum of 5. -/
theorem c5_counterexample :
    pharaohWild.jackpotContribution 50 = 5 ∧ max 1 (50 * 1 / 100) = 1 ∧
    pharaohWild.jackpotContribution 250 = 2 ∧
    ¬5 ≤ pharaohWild.jackpotContribution 250 := by decide

/-- C5 (amended): for bet > 0 the contribution is floor(bet × percent) when
that floor is positive, and otherwise exactly 5; it is always at least 1 but
not bounded below by 5. -/
theorem c5_contribution (m : WildJackpotMachine) (bet : Nat) (hbet : 1 ≤ bet) :
    (0 < bet * m.pctNum / m.pctDen →
      m.jackpotContribution bet = bet * m.pctNum / m.pctDen) ∧
    (bet * m.pctNum / m.pctDen = 0 → m.jackpotContribution bet = 5) ∧
    1 ≤ m.jackpotContribution bet := by
  unfold WildJackpotMachine.jackpotContribution
  dsimp only
  refine ⟨fun h => ?_, fun h => ?_, ?_⟩
  · rw [if_neg (by omega)]
  · rw [if_pos ⟨h, by omega⟩]
  · by_cases h : bet * m.pctNum / m.pctDen = 0
    · rw [if_pos ⟨h, by omega⟩]
      omega
    · rw [if_neg (by omega)]
      exact Nat.pos_of_ne_zero h

/-- C5 witness: the amended statement at the shipped pharaoh percent and
bet 250 (contribution 2). -/
theorem c5_witness :
    (1 ≤ 250) ∧
    ((0 < 250 * pharaohWild.pctNum / pharaohWild.pctDen →
      pharaohWild.jackpotContribution 250 =
        250 * pharaohWild.pctNum / pharaohWild.pctDen) ∧
    (250 * pharaohWild.pctNum / pharaohWild.pctDen = 0 →
      pharaohWild.jackpotContribution 250 = 5) ∧
    1 ≤ pharaohWild.jackpotContribution 250) :=
  ⟨by decide, c5_contribution pharaohWild 250 (by decide)⟩

theorem hasItem_alookup {s : DBState} {uid itemId : Nat}
    (h : hasItem s uid itemId = true) :
    ∃ q, alookup (uid, itemId) s.inventory = some q ∧ 0 < q := by
  unfold hasItem at h
  cases hq : alookup (uid, itemId) s.inventory with
  | none => rw [hq] at h; exact absurd h (by simp)
  | some q =>
    rw [hq] at h
    dsimp only at h
    exact ⟨q, rfl, by simpa using h⟩

theorem consumeItem_of_hasItem {s : DBState} {uid itemId : Nat}
    (h : hasItem s uid itemId = true) :
    ∃ s1, consumeItem s uid itemId = some s1 := by
  obtain ⟨q, hq, hpos⟩ := hasItem_alookup h
  unfold consumeItem
  rw [hq]
  dsimp only
  rw [if_neg (by omega)]
  by_cases h1 : q = 1
  · rw [if_pos h1]
    exact ⟨_, rfl⟩
  · rw [if_neg h1]
    exact ⟨_, rfl⟩

/-- C6 counterexample: with a live win-boost effect (expiry 300 > now 200)
and one amulet in inventory, `/use 21` is NOT rejected: it reports activated,
the inventory unit is consumed (1 → 0) and the stored effect is replaced
(expiry 300 → 1100). -/
theorem c6_counterexample :
    getEffect c6ActiveState 5 effectKeyWinBoost =
      some ⟨some 21, 300, some ⟨6, 5⟩⟩ ∧
    (200 : Nat) < 300 ∧
    getItemQuantity c6ActiveState 5 21 = 1 ∧
    (useItem c6ActiveState 5 21 200).1 = .activated ∧
    getItemQuantity (useItem c6ActiveState 5 21 200).2 5 21 = 0 ∧
    getEffect (useItem c6ActiveState 5 21 200).2 5 effectKeyWinBoost =
      some ⟨some 21, 1100, some ⟨6, 5⟩⟩ := by decide

/-- C6 (amended): activating the win-boost amulet (item 21) while owned is
never rejected for being already active — whether or not a boost is live, one
inventory unit is consumed and the stored effect is replaced by a fresh one
expiring at now + 900 with multiplier 6/5.  (Only the CREDIT_LINE branch has
an AlreadyActive rejection.) -/
theorem c6_winboost_reactivation {s : DBState} (uid now : Nat)
    (hown : hasItem s uid 21 = true) :
    ∃ s1, consumeItem s uid 21 = some s1 ∧
      useItem s uid 21 now = (.activated, setEffect s1 uid effectKeyWinBoost
        ⟨some 21, now + 900, some ⟨6, 5⟩⟩) ∧
      getItemQuantity (useItem s uid 21 now).2 uid 21 =
        getItemQuantity s uid 21 - 1 ∧
      getEffect (useItem s uid 21 now).2 uid effectKeyWinBoost =
        some ⟨some 21, now + 900, some ⟨6, 5⟩⟩ := by
  obtain ⟨s1, hcons⟩ := consumeItem_of_hasItem hown
  have huse : useItem s uid 21 now = (.activated, setEffect s1 uid
      effectKeyWinBoost ⟨some 21, now + 900, some ⟨6, 5⟩⟩) := by
    unfold useItem
    rw [show alookup 21 shopItems =
      some ⟨"win_boost", 7500, 0, 900, 6, 5, true⟩ from rfl]
    dsimp only
    rw [if_neg (by simp [hown]), if_neg (by decide), if_neg (by decide),
      if_pos rfl, if_neg (by decide), hcons]
    rfl
  refine ⟨s1, hcons, huse, ?_, ?_⟩
  · rw [huse]
    show getItemQuantity s1 uid 21 = getItemQuantity s uid 21 - 1
    exact consumeItem_quantity hcons
  · rw [huse]
    exact alookup_aset_self ..

/-- C6 witness: player 4 owns two amulets and has no live boost; activation
consumes one unit and stores the fresh effect. -/
theorem c6_witness :
    hasItem c6FreshState 4 21 = true ∧
    (∃ s1, consumeItem c6FreshState 4 21 = some s1 ∧
      useItem c6FreshState 4 21 10 = (.activated, setEffect s1 4
        effectKeyWinBoost ⟨some 21, 10 + 900, some ⟨6, 5⟩⟩) ∧
      getItemQuantity (useItem c6FreshState 4 21 10).2 4 21 =
        getItemQuantity c6FreshState 4 21 - 1 ∧
      getEffect (useItem c6FreshState 4 21 10).2 4 effectKeyWinBoost =
        some ⟨some 21, 10 + 900, some ⟨6, 5⟩⟩) :=
  ⟨by decide, c6_winboost_reactivation 4 10 (by decide)⟩

/-- C7: an all-scatter draw on the pirate machine awards 0 immediate
winnings and 10 free spins; and a free-spin cascade of any length runs
exactly that many zero-bet spins — no bet deduction (the balance changes by
exactly the credited winnings totals), no jackpot contribution (the jackpot
table is untouched), one free-spin record per spin — while the
winnings-and-boost crediting of steps 10-12 is applied in every cascade spin
(`record_spin` modelled from the spec; the starting balance is assumed
non-negative, which holds unless a credit line was consumed by the
triggering spin). -/
theorem c7_free_spin_cascade :
    (∀ bet : Nat, PirateMachine.evaluate pirateScatter pirateScatter
      pirateScatter bet = ⟨0, 0, 10⟩) ∧
    (∀ (m : Machine) (uid now count : Nat) (draws : List (Sym × Sym × Sym))
      (s : DBState) (r : UserRec),
      alookup uid s.users = some r → 0 ≤ r.balance →
      ∃ (s' : DBState) (total : Nat) (recs : List SpinRecord),
        runFreeSpins m uid now count draws s = (s', total, true) ∧
        s'.spins = s.spins ++ recs ∧
        recs.length = count ∧
        (∀ rec ∈ recs, rec.playerId = uid ∧ rec.machineKey = m.key ∧
          rec.bet = 0 ∧ rec.wasFreeSpin = true) ∧
        total = (recs.map SpinRecord.totalWin).sum ∧
        s'.jackpots = s.jackpots ∧
        alookup uid s'.users =
          some ⟨r.balance + (total : Int), r.lastDaily⟩) :=
  ⟨fun _ => rfl, fun m uid now count draws s r hr hb =>
    runFreeSpins_spec m uid now count draws s r hr hb⟩

/-- C7 witness: the scatter scenario at bet 100 and a 10-spin cascade for
player 9 (balance 0). -/
theorem c7_witness :
    PirateMachine.evaluate pirateScatter pirateScatter pirateScatter 100 =
      ⟨0, 0, 10⟩ ∧
    (∃ (s' : DBState) (total : Nat) (recs : List SpinRecord),
      runFreeSpins pirateMachine 9 5 10 [] c7State = (s', total, true) ∧
      s'.spins = c7State.spins ++ recs ∧
      recs.length = 10 ∧
      (∀ rec ∈ recs, rec.playerId = 9 ∧ rec.machineKey = pirateMachine.key ∧
        rec.bet = 0 ∧ rec.wasFreeSpin = true) ∧
      total = (recs.map SpinRecord.totalWin).sum ∧
      s'.jackpots = c7State.jackpots ∧
      alookup 9 s'.users = some ⟨(0 : Int) + (total : Int), none⟩) :=
  ⟨c7_free_spin_cascade.1 100,
    c7_free_spin_cascade.2 pirateMachine 9 5 10 [] c7State ⟨0, none⟩
      (by decide) (by decide)⟩

/-- C8: the shipped Classic machine's evaluation agrees with the claim's
decision procedure on every symbol triple and bet (special table first, then
triple ×5, then two-distinct ×2, else 0); the all-diamond scenario pays
100 × 50 = 5000 and the settled balance is 1000 − 100 + 5000 = 5900. -/
theorem c8_classic_order :
    (∀ (a b c : Sym) (bet : Nat),
      (FruitMachine.evaluate ⟨fruitSpecialPayouts⟩ a b c bet).winnings =
        classicSpecWinnings fruitSpecialPayouts a b c bet) ∧
    fruitMachine.evaluate "💎" "💎" "💎" 100 0 = ⟨5000, 0, 0⟩ ∧
    alookup 7 (slotsSettle fruitMachine c1State 7 (some 100)
      ("💎", "💎", "💎") 42).2.users = some ⟨5900, none⟩ := by
  refine ⟨?_, by decide, by decide⟩
  intro a b c bet
  unfold FruitMachine.evaluate classicSpecWinnings
  dsimp only
  cases hlk : alookup (a, b, c) fruitSpecialPayouts with
  | none =>
    rw [if_neg (by simp)]
    dsimp only
    split_ifs <;> rfl
  | some p =>
    rw [if_pos (by simpa using fruitSpecial_pos hlk)]
    rfl

/-- C9 counterexample: at balance 30 the code computes `int(30 × 0.05)` =
trunc(1.5) = 1, while the claimed `clamp(round(30 × 0.05), 1, 1000)` is 2. -/
theorem c9_counterexample :
    resolveBet 30 none = some 1 ∧ autoBetRoundSpec 30 = 2 ∧ (1 : Int) ≠ 2 := by
  decide

/-- C9 (amended): the auto-computed bet is
`clamp(trunc(balance × 0.05), 1, 1000)` — 5% of the balance truncated toward
zero (not rounded to nearest), then clamped to [1, 1000]. -/
theorem c9_auto_bet (balance : Int) :
    resolveBet balance none =
      some (max 1 (min 1000 (autoBetTrunc balance))) := by
  unfold resolveBet
  dsimp only
  by_cases h : 0 < autoBetTrunc balance
  · rw [if_pos h, if_pos (by omega)]
  · rw [if_neg h, if_pos (by omega)]
    congr 1
    omega

/-- C10: a self-transfer with sufficient balance succeeds and mints chips:
the recipient credit is computed from the balance read before the debit was
written, so the final balance is the original plus the amount. -/
theorem c10_self_transfer {s : DBState} {uid : Nat} {amount : Int}
    {r : UserRec} (hr : alookup uid s.users = some r) (hpos : 0 < amount)
    (hba : amount ≤ r.balance) :
    ∃ s', transfer s uid uid amount =
      some ((r.balance - amount, r.balance + amount), s') ∧
      alookup uid s'.users = some ⟨r.balance + amount, r.lastDaily⟩ := by
  unfold transfer
  rw [if_neg (by omega), hr]
  dsimp only
  rw [if_neg (by omega)]
  exact ⟨_, rfl, alookup_aset_self ..⟩

/-- C10 witness: balance 100, self-transfer of 100 succeeds and leaves
balance 200. -/
theorem c10_witness :
    alookup 1 c10State.users = some ⟨100, none⟩ ∧ (0 : Int) < 100 ∧
    (100 : Int) ≤ 100 ∧
    (∃ s', transfer c10State 1 1 100 = some ((0, 200), s') ∧
      alookup 1 s'.users = some ⟨200, none⟩) :=
  ⟨by decide, by decide, by decide,
    @c10_self_transfer c10State 1 100 ⟨100, none⟩ (by decide) (by decide)
      (by decide)⟩

end Casino